import Mathlib

/-! S3 server access log parser (`awslogs/s3_server_access.go`)

A shallow embedding of `S3ServerAccessParser.Parse` and of the library
routines it calls, followed by theorems about the parser.

Conventions of the embedding:

* Go strings are Lean `String`s (the input is taken to be valid UTF-8 text);
  every delimiter the code looks at is ASCII, so splitting on bytes and
  splitting on characters agree.
* A Go pointer field (`*string`, `*int`, `*timestamp.RFC3339`) is an `Option`.
* A Go slice is a `List`; the `nil` slice is `[]`.
* `Parse` returns `Option (List S3ServerAccess)`: `none` stands for a run-time
  panic (index out of range), `some []` for the `nil` result and `some [e]`
  for the one-element result `[]interface{}{event}`.
* Logging through `zap` has no effect on the result and is left out.
-/

set_option maxRecDepth 100000

/-! ## `encoding/csv`: the reader as configured by `Parse` -/

namespace csv

/-- The double quote character. -/
def quote : Char := Char.ofNat 34

/-- The line feed character. -/
def lf : Char := Char.ofNat 10

/-- The carriage return character. -/
def cr : Char := Char.ofNat 13

/-- The field delimiter set by `Parse` (`reader.Comma = ' '`). -/
def Comma : Char := ' '

/-- The effect of `Reader.readLine` on the text it hands out: every line
ending `\r\n` is handed out as `\n`, and a `\r` that is the last character of
the input is dropped. -/
def normalizeNewlines : List Char → List Char
  | [] => []
  | c :: cs =>
    if c = cr then
      match cs with
      | [] => []
      | d :: _ => if d = lf then normalizeNewlines cs else c :: normalizeNewlines cs
    else c :: normalizeNewlines cs

/-- Where `Reader.readRecord` stands in the input.

* `lineStart`: between records, at the first character of a line (the loop
  that skips empty lines);
* `fieldStart`: at the top of the `parseField` loop inside a record;
* `bare`: inside a non-quoted field;
* `quoted`: inside a quoted field, scanning for the next quote;
* `quoteSeen`: inside a quoted field, right after a quote character. -/
inductive Mode where
  | lineStart
  | fieldStart
  | bare
  | quoted
  | quoteSeen
deriving DecidableEq, Repr

/-- The records read by repeated `Reader.readRecord` calls with
`Comma = ' '`, `LazyQuotes = true`, no comment character and no trimming, as a
character-by-character machine. `fields` holds the finished fields of the
record being read (last first), `cur` the characters of the field being read
(last first).

* non-quoted field: runs up to the next delimiter or the end of the line; a
  quote inside it is kept (`LazyQuotes`);
* quoted field: `""` appends a quote, `"` followed by the delimiter ends the
  field, `"` followed by the end of the line ends the record, `"` followed by
  anything else appends the quote (`LazyQuotes`); a line end inside the quotes
  is kept and the field goes on with the next line; the end of the input ends
  the field and the record;
* a line holding nothing but its line end is skipped between records. -/
def readRecords : Mode → List String → List Char → List Char → List (List String)
  | mode, fields, cur, [] =>
    match mode with
    | .lineStart => []
    | _ => [(String.mk cur.reverse :: fields).reverse]
  | mode, fields, cur, c :: cs =>
    match mode with
    | .lineStart =>
      if c = lf then readRecords .lineStart [] [] cs
      else if c = quote then readRecords .quoted [] [] cs
      else if c = Comma then readRecords .fieldStart ["" ] [] cs
      else readRecords .bare [] [c] cs
    | .fieldStart =>
      if c = quote then readRecords .quoted fields [] cs
      else if c = Comma then readRecords .fieldStart ("" :: fields) [] cs
      else if c = lf then ("" :: fields).reverse :: readRecords .lineStart [] [] cs
      else readRecords .bare fields [c] cs
    | .bare =>
      if c = Comma then readRecords .fieldStart (String.mk cur.reverse :: fields) [] cs
      else if c = lf then
        (String.mk cur.reverse :: fields).reverse :: readRecords .lineStart [] [] cs
      else readRecords .bare fields (c :: cur) cs
    | .quoted =>
      if c = quote then readRecords .quoteSeen fields cur cs
      else readRecords .quoted fields (c :: cur) cs
    | .quoteSeen =>
      if c = quote then readRecords .quoted fields (quote :: cur) cs
      else if c = Comma then readRecords .fieldStart (String.mk cur.reverse :: fields) [] cs
      else if c = lf then
        (String.mk cur.reverse :: fields).reverse :: readRecords .lineStart [] [] cs
      else readRecords .quoted fields (c :: quote :: cur) cs

/-- The one error `ReadAll` can return under `LazyQuotes` on an in-memory
reader: a record whose number of fields differs from the first record's
(`ErrFieldCount`, since `FieldsPerRecord` is 0). -/
inductive ParseError where
  | ErrFieldCount
deriving DecidableEq, Repr

/-- The result of `Reader.ReadAll` on `strings.NewReader(log)`: all records,
or the error of the first record whose field count differs from the first
record's. -/
def ReadAll (log : String) : Except ParseError (List (List String)) :=
  match readRecords .lineStart [] [] (normalizeNewlines log.toList) with
  | [] => .ok []
  | first :: rest =>
    if rest.all (fun r => r.length == first.length) then .ok (first :: rest)
    else .error .ErrFieldCount

end csv

deriving instance DecidableEq for Except

/-! ## `strconv`, `strings` -/

namespace strconv

/-- The value of a run of decimal digits, most significant first. -/
def digitsValue (ds : List Char) : Nat :=
  ds.foldl (fun n c => 10 * n + (c.toNat - 48)) 0

/-- The function `strconv.Atoi` on a 64-bit platform: an optional sign, then one or more
decimal digits and nothing else; a value outside the `int` range is an error.
`none` stands for a non-nil error. -/
def Atoi (s : String) : Option Int :=
  let digits : Bool × List Char :=
    match s.toList with
    | [] => (false, [])
    | c :: cs => if c = '-' then (true, cs) else if c = '+' then (false, cs) else (false, c :: cs)
  if digits.2.isEmpty || !digits.2.all Char.isDigit then none
  else
    let v : Int := if digits.1 then -(digitsValue digits.2 : Int) else (digitsValue digits.2 : Int)
    if -(2 : Int) ^ 63 ≤ v ∧ v ≤ (2 : Int) ^ 63 - 1 then some v else none

end strconv

namespace strings

/-- The function `strings.HasPrefix`: whether `s` begins with `pre`. -/
def HasPrefix (s pre : String) : Bool :=
  pre.toList.isPrefixOf s.toList

end strings

/-! ## `timestamp`: the event time -/

namespace timestamp

/-- An instant, as `timestamp.RFC3339` (a `time.Time`) holds it: seconds since
1970-01-01T00:00:00Z and nanoseconds within the second. -/
structure RFC3339 where
  unixSec : Int
  nsec : Nat
deriving DecidableEq, Repr

/-- Leap years of the Gregorian calendar (`time.isLeap`). -/
def isLeap (year : Nat) : Bool :=
  year % 4 == 0 && (year % 100 != 0 || year % 400 == 0)

/-- Days in a month, months counted from 1 (`time.daysIn`). -/
def daysIn (month year : Nat) : Nat :=
  if month == 2 then (if isLeap year then 29 else 28)
  else if month == 4 || month == 6 || month == 9 || month == 11 then 30
  else 31

/-- Days from 0000-01-01 to the first day of `year`. -/
def daysBeforeYear (year : Nat) : Nat :=
  365 * year + (year + 3) / 4 - (year + 99) / 100 + (year + 399) / 400

/-- Days from the first day of `year` to the first day of `month`. -/
def daysBeforeMonth (month year : Nat) : Nat :=
  ((List.range (month - 1)).map (fun m => daysIn (m + 1) year)).sum

/-- The instant of a civil date and time of day in UTC (`time.Date` with
location UTC), for fields already in range. -/
def Date (year month day hour min sec nsec : Nat) : RFC3339 :=
  { unixSec :=
      ((daysBeforeYear year + daysBeforeMonth month year + (day - 1) : Nat) : Int) * 86400
        - ((daysBeforeYear 1970 : Nat) : Int) * 86400
        + ((hour * 3600 + min * 60 + sec : Nat) : Int)
    nsec := nsec }

/-- Consume one given character (`time.skip` on a one-character literal). -/
def expect (c : Char) : List Char → Option (List Char)
  | [] => none
  | d :: rest => if d = c then some rest else none

/-- One or two leading digits, exactly two when `fixed` (`time.getnum`). -/
def getnum (s : List Char) (fixed : Bool) : Option (Nat × List Char) :=
  match s with
  | [] => none
  | a :: rest =>
    if !a.isDigit then none
    else
      match rest with
      | [] => if fixed then none else some (a.toNat - 48, [])
      | b :: rest2 =>
        if !b.isDigit then (if fixed then none else some (a.toNat - 48, b :: rest2))
        else some ((a.toNat - 48) * 10 + (b.toNat - 48), rest2)

/-- The abbreviated month names (`time.shortMonthNames`). -/
def shortMonthNames : List String :=
  ["Jan", "Feb", "Mar", "Apr", "May", "Jun", "Jul", "Aug", "Sep", "Oct", "Nov", "Dec"]

/-- Whether `value` starts with `name`, letters compared without regard to
case (`time.match` on the leading characters). -/
def matchName (name value : List Char) : Bool :=
  (value.take name.length).map Char.toLower == name.map Char.toLower
    && name.length ≤ value.length

/-- Index of the first name of `tab` that `value` starts with, counted from
`i`, and the rest of `value` (`time.lookup`). -/
def lookup (tab : List String) (i : Nat) (value : List Char) : Option (Nat × List Char) :=
  match tab with
  | [] => none
  | name :: more =>
    if matchName name.toList value then some (i, value.drop name.length)
    else lookup more (i + 1) value

/-- Four digits (`stdLongYear`). -/
def getYear (s : List Char) : Option (Nat × List Char) :=
  match s with
  | a :: b :: c :: d :: rest =>
    if a.isDigit && b.isDigit && c.isDigit && d.isDigit then
      some (strconv.digitsValue [a, b, c, d], rest)
    else none
  | _ => none

/-- A fraction of a second that the input has although the layout has none:
a period or comma followed by digits, of which the first nine count. Returns
the nanoseconds and the rest of the input; `(0, s)` when there is no
fraction. -/
def getFraction (s : List Char) : Nat × List Char :=
  match s with
  | p :: d :: rest =>
    if (p = '.' || p = ',') && d.isDigit then
      let ds := (d :: rest).takeWhile Char.isDigit
      let used := ds.take 9
      (strconv.digitsValue used * 10 ^ (9 - used.length), (d :: rest).dropWhile Char.isDigit)
    else (0, s)
  | _ => (0, s)

/-- A numeric zone offset `±hhmm` in seconds east of UTC (`stdNumTZ`). -/
def getZone (s : List Char) : Option (Int × List Char) :=
  match s with
  | sign :: h1 :: h2 :: m1 :: m2 :: rest =>
    match getnum [h1, h2] true, getnum [m1, m2] true with
    | some (hr, _), some (mm, _) =>
      if hr > 24 || mm > 60 then none
      else if sign = '+' then some ((((hr * 60 + mm) * 60 : Nat) : Int), rest)
      else if sign = '-' then some (-(((hr * 60 + mm) * 60 : Nat) : Int), rest)
      else none
    | _, _ => none
  | _ => none

/-- Go on only when a range or end-of-input test holds. -/
def require (ok : Bool) : Option Unit :=
  if ok then some () else none

/-- The layout chunks `[2/Jan/2006`: `[`, a day of one or two digits, `/`, a
month abbreviation in any letter case, `/`, a year of four digits. Returns
year, month (from 1) and day; the day is checked against the month later. -/
def parseDate (value : List Char) : Option ((Nat × Nat × Nat) × List Char) := do
  let v ← expect '[' value
  let (day, v) ← getnum v false
  let v ← expect '/' v
  let (month0, v) ← lookup shortMonthNames 0 v
  let v ← expect '/' v
  let (year, v) ← getYear v
  some ((year, month0 + 1, day), v)

/-- The layout chunks `:15:04:05`: `:`, an hour of one or two digits below
24, `:`, a minute of two digits below 60, `:`, a second of two digits below
60. Returns hour, minute and second. -/
def parseClock (value : List Char) : Option ((Nat × Nat × Nat) × List Char) := do
  let v ← expect ':' value
  let (hour, v) ← getnum v false
  require (hour < 24)
  let v ← expect ':' v
  let (min, v) ← getnum v true
  require (min < 60)
  let v ← expect ':' v
  let (sec, v) ← getnum v true
  require (sec < 60)
  some ((hour, min, sec), v)

/-- Modelled from the spec: `timestamp.Parse` is not among the sources. The
spec has the two timestamp tokens, once concatenated, parsed against the fixed
layout `[D/Mon/YYYY:HH:MM:SS+ZZZZ]`; the call site passes the Go layout
`"[2/Jan/2006:15:04:05-0700]"`, and this definition reads a value against
that one layout the way `time.Parse` (Go 1.20 and later) does: the date
(`parseDate`), the time of day (`parseClock`), an optional fraction of a
second, a zone offset `±hhmm`, `]`, and nothing after it; the day has to exist
in its month. The result is the instant in UTC; `none` stands for a non-nil
error. -/
def Parse (value : String) : Option RFC3339 := do
  let (date, v) ← parseDate value.toList
  let (clock, v) ← parseClock v
  let fraction := getFraction v
  let (zoneOffset, v) ← getZone fraction.2
  let v ← expect ']' v
  require v.isEmpty
  require (1 ≤ date.2.2 && date.2.2 ≤ daysIn date.2.1 date.1)
  some { unixSec :=
           (Date date.1 date.2.1 date.2.2 clock.1 clock.2.1 clock.2.2 fraction.1).unixSec
             - zoneOffset
         nsec := fraction.1 }

end timestamp

/-! ## `net`: IP literals -/

namespace net

/-- A hexadecimal digit. -/
def isHex (c : Char) : Bool :=
  c.isDigit || ('a' ≤ c && c ≤ 'f') || ('A' ≤ c && c ≤ 'F')

/-- Dotted-decimal IPv4 text (`netip.parseIPv4Fields`): four fields separated
by dots, each of one to three digits, at most 255, without a leading zero.
`val` is the value of the field being read, `pos` the number of fields
finished, `digLen` the number of digits of the field being read. -/
def parseIPv4Fields : List Char → Nat → Nat → Nat → Bool
  | [], _, pos, _ => !(pos < 3)
  | c :: cs, val, pos, digLen =>
    if c.isDigit then
      if digLen == 1 && val == 0 then false
      else if val * 10 + (c.toNat - 48) > 255 then false
      else parseIPv4Fields cs (val * 10 + (c.toNat - 48)) pos (digLen + 1)
    else if c = '.' then
      if digLen == 0 || cs.isEmpty then false
      else if pos == 3 then false
      else parseIPv4Fields cs 0 (pos + 1) 0
    else false

/-- The tests of `netip.parseIPv6` after its loop: the whole text was used,
and a `::` stands for at least one group exactly when fewer than 16 bytes were
filled. -/
def finishIPv6 (s : List Char) (i : Nat) (ellipsis : Bool) : Bool :=
  s.isEmpty && (if i < 16 then ellipsis else !ellipsis)

/-- The loop of `netip.parseIPv6`, one group of one to four hexadecimal digits
per round, with `left` rounds to go before 16 bytes are filled (so the loop
variable `i` is `16 - 2 * left`); a group followed by a dot starts a trailing
IPv4 part. -/
def parseIPv6Loop : Nat → List Char → Bool → Bool
  | 0, s, ellipsis => finishIPv6 s 16 ellipsis
  | left + 1, s, ellipsis =>
    if (s.takeWhile isHex).isEmpty || (s.takeWhile isHex).length > 4 then false
    else
      match s.dropWhile isHex with
      | [] => finishIPv6 [] (16 - 2 * (left + 1) + 2) ellipsis
      | c :: more =>
        if c = '.' then
          if !ellipsis && 16 - 2 * (left + 1) != 12 then false
          else if 16 - 2 * (left + 1) + 4 > 16 then false
          else if !parseIPv4Fields s 0 0 0 then false
          else finishIPv6 [] (16 - 2 * (left + 1) + 4) ellipsis
        else if c != ':' then false
        else
          match more with
          | [] => false
          | d :: more2 =>
            if d = ':' then
              if ellipsis then false
              else if more2.isEmpty then finishIPv6 [] (16 - 2 * (left + 1) + 2) true
              else parseIPv6Loop left more2 true
            else parseIPv6Loop left more ellipsis

/-- IPv6 text (`netip.parseIPv6`; a zone is never accepted by `net.ParseIP`). -/
def parseIPv6 (s : List Char) : Bool :=
  match s with
  | ':' :: ':' :: rest => if rest.isEmpty then true else parseIPv6Loop 8 rest true
  | _ => parseIPv6Loop 8 s false

/-- Whether `net.ParseIP` returns a non-nil address (Go 1.22 and later): the
first dot, colon or percent sign decides between the IPv4 and the IPv6
reading. -/
def ParseIP (s : String) : Bool :=
  match s.toList.find? (fun c => c = '.' || c = ':' || c = '%') with
  | some c => if c = '.' then parseIPv4Fields s.toList 0 0 0
              else if c = ':' then parseIPv6 s.toList
              else false
  | none => false

end net

/-! ## `parsers`: field decoders, core fields and validation -/

namespace parsers

/-- Modelled from the spec: `parsers.CsvStringToPointer` is not among the
sources. A token equal to the sentinel `-` decodes to absent, any other token
to itself. -/
def CsvStringToPointer (value : String) : Option String :=
  if value = "-" then none else some value

/-- Modelled from the spec: `parsers.CsvStringToIntPointer` is not among the
sources. The sentinel `-` and a token that fails numeric parsing decode to
absent, any other token to its integer value. -/
def CsvStringToIntPointer (value : String) : Option Int :=
  if value = "-" then none else strconv.Atoi value

/-- Insertion into an indicator set, a set of strings kept without
duplicates. -/
def appendAnyString (set : List String) (value : String) : List String :=
  if value ∈ set then set else set ++ [value]

end parsers

/-- Modelled from the spec: `AWSPantherLog` (embedding `parsers.PantherLog`)
is not among the sources. The common envelope of an event: the log-type
identifier, the event time and the indicator sets for IP addresses and for
resource identifiers (ARNs). -/
structure AWSPantherLog where
  PantherLogType : String := ""
  PantherEventTime : Option timestamp.RFC3339 := none
  PantherAnyIPAddresses : List String := []
  PantherAnyAWSARNs : List String := []
deriving DecidableEq, Repr

namespace AWSPantherLog

/-- Modelled from the spec: `SetCoreFieldsPtr` is not among the sources. Sets
the log-type identifier and the event time from the values supplied. -/
def SetCoreFieldsPtr (pl : AWSPantherLog) (logType : String)
    (eventTime : Option timestamp.RFC3339) : AWSPantherLog :=
  { pl with PantherLogType := logType, PantherEventTime := eventTime }

/-- Modelled from the spec: `AppendAnyIPAddressPtrs` is not among the sources.
A present value that is a syntactically valid IPv4 or IPv6 literal is added to
the IP-address indicator set; an absent value or any other text adds
nothing. -/
def AppendAnyIPAddressPtrs (pl : AWSPantherLog) (value : Option String) : AWSPantherLog :=
  match value with
  | none => pl
  | some v =>
    if net.ParseIP v then
      { pl with PantherAnyIPAddresses := parsers.appendAnyString pl.PantherAnyIPAddresses v }
    else pl

/-- Modelled from the spec: `AppendAnyAWSARNs` is not among the sources. Adds
the full value to the resource-identifier indicator set. -/
def AppendAnyAWSARNs (pl : AWSPantherLog) (value : String) : AWSPantherLog :=
  { pl with PantherAnyAWSARNs := parsers.appendAnyString pl.PantherAnyAWSARNs value }

end AWSPantherLog

namespace parsers

/-- A computation that may end in a run-time panic: `none` is the panic. -/
def Panics (α : Type) : Type := Option α

/-- Sequencing of computations that may panic: a panic ends the run. -/
@[noinline]
def Panics.bind {α β : Type} (x : Panics α) (f : α → Panics β) : Panics β :=
  match x with
  | none => none
  | some a => f a

instance : Monad Panics where
  pure := fun a => some a
  bind := Panics.bind

/-- The index expression `record[i]`: a panic when `i` is out of range. -/
def index (record : List String) (i : Nat) : Panics String :=
  record[i]?

/-- The slice expression `record[i:]`: a panic when `i` exceeds the length. -/
def sliceFrom (record : List String) (i : Nat) : Panics (List String) :=
  if i ≤ record.length then some (record.drop i) else none

end parsers

/-- The fixed number of columns of the schema. -/
def s3ServerAccessMinNumberOfColumns : Nat := 25

/-- The event of an S3 server access log line. The embedded `AWSPantherLog`
is the parent structure. -/
structure S3ServerAccess extends AWSPantherLog where
  BucketOwner : Option String
  Bucket : Option String
  Time : Option timestamp.RFC3339
  RemoteIP : Option String
  Requester : Option String
  RequestID : Option String
  Operation : Option String
  Key : Option String
  RequestURI : Option String
  HTTPStatus : Option Int
  ErrorCode : Option String
  BytesSent : Option Int
  ObjectSize : Option Int
  TotalTime : Option Int
  TurnAroundTime : Option Int
  Referrer : Option String
  UserAgent : Option String
  VersionID : Option String
  HostID : Option String
  SignatureVersion : Option String
  CipherSuite : Option String
  AuthenticationType : Option String
  HostHeader : Option String
  TLSVersion : Option String
  AdditionalFields : List String
deriving DecidableEq, Repr

namespace parsers.Validator

/-- The `alphanum` rule: one or more characters, each an ASCII letter or
digit. -/
def alphanum (s : String) : Bool :=
  !s.toList.isEmpty && s.toList.all Char.isAlphanum

/-- The rules declared on `BucketOwner`, `required,len=64,alphanum`: the value
is present, has 64 characters and is alphanumeric. -/
def bucketOwnerOk (v : Option String) : Bool :=
  match v with
  | none => false
  | some s => s.length == 64 && alphanum s

/-- The rules declared on `HTTPStatus`, `required,max=600,min=100`: the value
is present, at most 600 and at least 100. -/
def httpStatusOk (v : Option Int) : Bool :=
  match v with
  | none => false
  | some n => decide (n ≤ 600) && decide (100 ≤ n)

/-- Whether `parsers.Validator.Struct(event)` returns no error: every rule declared in
the `validate` tags of `S3ServerAccess` holds. The rules of the embedded
envelope are not among the sources; the spec requires of it a log-type
identifier and an event time. -/
def Struct (event : S3ServerAccess) : Bool :=
  bucketOwnerOk event.BucketOwner && httpStatusOk event.HTTPStatus
    && event.PantherLogType != "" && event.PantherEventTime.isSome

end parsers.Validator

namespace S3ServerAccessParser

/-- The log type supported by this parser (`LogType`). -/
def LogType : String := "AWS.S3ServerAccess"

end S3ServerAccessParser

/-- The method `updatePantherFields`: sets the core fields, offers the remote address to
the IP indicator set, and adds a requester that starts with `arn:` to the
ARN indicator set. -/
def S3ServerAccess.updatePantherFields (event : S3ServerAccess) : S3ServerAccess :=
  let event1 : S3ServerAccess :=
    { event with
      toAWSPantherLog :=
        event.toAWSPantherLog.SetCoreFieldsPtr S3ServerAccessParser.LogType event.Time }
  let event2 : S3ServerAccess :=
    { event1 with
      toAWSPantherLog := event1.toAWSPantherLog.AppendAnyIPAddressPtrs event1.RemoteIP }
  match event2.Requester with
  | some requester =>
    if strings.HasPrefix requester "arn:" then
      { event2 with toAWSPantherLog := event2.toAWSPantherLog.AppendAnyAWSARNs requester }
    else event2
  | none => event2

namespace S3ServerAccessParser

open parsers in
/-- The method `Parse`: returns the parsed events or nil if parsing failed. -/
def Parse (log : String) : Option (List S3ServerAccess) :=
  match csv.ReadAll log with
  | .error _ => some []
  | .ok [] => some []
  | .ok (record :: _) =>
    if record.length < s3ServerAccessMinNumberOfColumns then some []
    else
      let run : Panics (List S3ServerAccess) := do
        match timestamp.Parse ((← index record 2) ++ (← index record 3)) with
        | none => pure []
        | some parsedTime =>
          let additionalFields ←
            if record.length > 25 then sliceFrom record 25 else pure []
          let event : S3ServerAccess := {
            BucketOwner := CsvStringToPointer (← index record 0)
            Bucket := CsvStringToPointer (← index record 1)
            Time := some parsedTime
            RemoteIP := CsvStringToPointer (← index record 4)
            Requester := CsvStringToPointer (← index record 5)
            RequestID := CsvStringToPointer (← index record 6)
            Operation := CsvStringToPointer (← index record 7)
            Key := CsvStringToPointer (← index record 8)
            RequestURI := CsvStringToPointer (← index record 9)
            HTTPStatus := CsvStringToIntPointer (← index record 10)
            ErrorCode := CsvStringToPointer (← index record 11)
            BytesSent := CsvStringToIntPointer (← index record 12)
            ObjectSize := CsvStringToIntPointer (← index record 13)
            TotalTime := CsvStringToIntPointer (← index record 14)
            TurnAroundTime := CsvStringToIntPointer (← index record 15)
            Referrer := CsvStringToPointer (← index record 16)
            UserAgent := CsvStringToPointer (← index record 17)
            VersionID := CsvStringToPointer (← index record 18)
            HostID := CsvStringToPointer (← index record 19)
            SignatureVersion := CsvStringToPointer (← index record 20)
            CipherSuite := CsvStringToPointer (← index record 21)
            AuthenticationType := CsvStringToPointer (← index record 22)
            HostHeader := CsvStringToPointer (← index record 23)
            TLSVersion := CsvStringToPointer (← index record 24)
            AdditionalFields := additionalFields }
          let event := event.updatePantherFields
          if Validator.Struct event then pure [event] else pure []
      run

/-- The method `ParseHeader`: parses the line as data, the format has no
header. -/
def ParseHeader (log : String) : Option (List S3ServerAccess) :=
  Parse log

end S3ServerAccessParser

namespace S3ServerAccessParser

open parsers in
/-- The event that `Parse` populates, before enrichment, from a record whose
25 fixed columns are all in range and from the parsed time: the struct literal
of `Parse`, column by column. Used to state what `Parse` computes. -/
def eventOf (record : List String) (parsedTime : timestamp.RFC3339) : S3ServerAccess :=
  { BucketOwner := CsvStringToPointer (record.getD 0 "")
    Bucket := CsvStringToPointer (record.getD 1 "")
    Time := some parsedTime
    RemoteIP := CsvStringToPointer (record.getD 4 "")
    Requester := CsvStringToPointer (record.getD 5 "")
    RequestID := CsvStringToPointer (record.getD 6 "")
    Operation := CsvStringToPointer (record.getD 7 "")
    Key := CsvStringToPointer (record.getD 8 "")
    RequestURI := CsvStringToPointer (record.getD 9 "")
    HTTPStatus := CsvStringToIntPointer (record.getD 10 "")
    ErrorCode := CsvStringToPointer (record.getD 11 "")
    BytesSent := CsvStringToIntPointer (record.getD 12 "")
    ObjectSize := CsvStringToIntPointer (record.getD 13 "")
    TotalTime := CsvStringToIntPointer (record.getD 14 "")
    TurnAroundTime := CsvStringToIntPointer (record.getD 15 "")
    Referrer := CsvStringToPointer (record.getD 16 "")
    UserAgent := CsvStringToPointer (record.getD 17 "")
    VersionID := CsvStringToPointer (record.getD 18 "")
    HostID := CsvStringToPointer (record.getD 19 "")
    SignatureVersion := CsvStringToPointer (record.getD 20 "")
    CipherSuite := CsvStringToPointer (record.getD 21 "")
    AuthenticationType := CsvStringToPointer (record.getD 22 "")
    HostHeader := CsvStringToPointer (record.getD 23 "")
    TLSVersion := CsvStringToPointer (record.getD 24 "")
    AdditionalFields := record.drop 25 }

end S3ServerAccessParser

namespace S3ServerAccess

/-- The optional string fields of the fixed schema, each with the index of
the column that `Parse` decodes it from. -/
def stringFields (e : S3ServerAccess) : List (Nat × Option String) :=
  [(0, e.BucketOwner), (1, e.Bucket), (4, e.RemoteIP), (5, e.Requester), (6, e.RequestID),
   (7, e.Operation), (8, e.Key), (9, e.RequestURI), (11, e.ErrorCode), (16, e.Referrer),
   (17, e.UserAgent), (18, e.VersionID), (19, e.HostID), (20, e.SignatureVersion),
   (21, e.CipherSuite), (22, e.AuthenticationType), (23, e.HostHeader), (24, e.TLSVersion)]

/-- The optional numeric fields of the fixed schema, each with the index of
the column that `Parse` decodes it from. -/
def intFields (e : S3ServerAccess) : List (Nat × Option Int) :=
  [(10, e.HTTPStatus), (12, e.BytesSent), (13, e.ObjectSize), (14, e.TotalTime),
   (15, e.TurnAroundTime)]

end S3ServerAccess

/-! ## Sample lines

The first is the sample line of the AWS documentation of the format; the
others vary one column at a time. -/

namespace Samples

/-- A 64-character canonical user ID. -/
def owner : String := "79a59df900b949e55d96a1e698fbacedfd6e09d98eacf8f8d5218e7cd47ef2be"

/-- The sample line of the format's documentation: 25 columns, three of them
quoted. -/
def docLine : String :=
  "79a59df900b949e55d96a1e698fbacedfd6e09d98eacf8f8d5218e7cd47ef2be awsexamplebucket [06/Feb/2019:00:00:38 +0000] 192.0.2.3 79a59df900b949e55d96a1e698fbacedfd6e09d98eacf8f8d5218e7cd47ef2be 3E57427F3EXAMPLE REST.GET.VERSIONING - \"GET /awsexamplebucket?versioning HTTP/1.1\" 200 - 113 - 7 - \"-\" \"S3Console\" - s9lzHYrFp76ZVxRcpX9+5cjAnEH2ROuNkd2BHfIa6UkFVdtjf5mKR3/eTPFvsiP/XV/VLi31234= SigV2 ECDHE-RSA-AES128-GCM-SHA256 AuthHeader awsexamplebucket.s3.amazonaws.com TLSV1.1"

/-- The columns of `docLine`. -/
def docRecord : List String :=
  [owner, "awsexamplebucket", "[06/Feb/2019:00:00:38", "+0000]", "192.0.2.3", owner,
   "3E57427F3EXAMPLE", "REST.GET.VERSIONING", "-", "GET /awsexamplebucket?versioning HTTP/1.1",
   "200", "-", "113", "-", "7", "-", "-", "S3Console", "-",
   "s9lzHYrFp76ZVxRcpX9+5cjAnEH2ROuNkd2BHfIa6UkFVdtjf5mKR3/eTPFvsiP/XV/VLi31234=", "SigV2",
   "ECDHE-RSA-AES128-GCM-SHA256", "AuthHeader", "awsexamplebucket.s3.amazonaws.com", "TLSV1.1"]

/-- The event of `docLine`. -/
def docEvent : S3ServerAccess :=
  { PantherLogType := "AWS.S3ServerAccess"
    PantherEventTime := some { unixSec := 1549411238, nsec := 0 }
    PantherAnyIPAddresses := ["192.0.2.3"]
    PantherAnyAWSARNs := []
    BucketOwner := some owner
    Bucket := some "awsexamplebucket"
    Time := some { unixSec := 1549411238, nsec := 0 }
    RemoteIP := some "192.0.2.3"
    Requester := some owner
    RequestID := some "3E57427F3EXAMPLE"
    Operation := some "REST.GET.VERSIONING"
    Key := none
    RequestURI := some "GET /awsexamplebucket?versioning HTTP/1.1"
    HTTPStatus := some 200
    ErrorCode := none
    BytesSent := some 113
    ObjectSize := none
    TotalTime := some 7
    TurnAroundTime := none
    Referrer := none
    UserAgent := some "S3Console"
    VersionID := none
    HostID := some "s9lzHYrFp76ZVxRcpX9+5cjAnEH2ROuNkd2BHfIa6UkFVdtjf5mKR3/eTPFvsiP/XV/VLi31234="
    SignatureVersion := some "SigV2"
    CipherSuite := some "ECDHE-RSA-AES128-GCM-SHA256"
    AuthenticationType := some "AuthHeader"
    HostHeader := some "awsexamplebucket.s3.amazonaws.com"
    TLSVersion := some "TLSV1.1"
    AdditionalFields := [] }

/-- The first 24 columns of `docLine`. -/
def shortLine : String :=
  "79a59df900b949e55d96a1e698fbacedfd6e09d98eacf8f8d5218e7cd47ef2be awsexamplebucket [06/Feb/2019:00:00:38 +0000] 192.0.2.3 79a59df900b949e55d96a1e698fbacedfd6e09d98eacf8f8d5218e7cd47ef2be 3E57427F3EXAMPLE REST.GET.VERSIONING - \"GET /awsexamplebucket?versioning HTTP/1.1\" 200 - 113 - 7 - \"-\" \"S3Console\" - s9lzHYrFp76ZVxRcpX9+5cjAnEH2ROuNkd2BHfIa6UkFVdtjf5mKR3/eTPFvsiP/XV/VLi31234= SigV2 ECDHE-RSA-AES128-GCM-SHA256 AuthHeader awsexamplebucket.s3.amazonaws.com"

/-- A line of 27 columns: the requester is an ARN, and two columns follow the
fixed schema, the second of them the sentinel. -/
def arnLine : String :=
  "79a59df900b949e55d96a1e698fbacedfd6e09d98eacf8f8d5218e7cd47ef2be mybucket [06/Feb/2019:00:00:38 +0000] 192.0.2.3 arn:aws:iam::123456789012:user/alice - - - - 200 - - - - - - - - - - - - - - extra -"

/-- The columns of `arnLine`. -/
def arnRecord : List String :=
  [owner, "mybucket", "[06/Feb/2019:00:00:38", "+0000]", "192.0.2.3",
   "arn:aws:iam::123456789012:user/alice", "-", "-", "-", "-", "200", "-", "-", "-", "-", "-",
   "-", "-", "-", "-", "-", "-", "-", "-", "-", "extra", "-"]

/-- An event with the envelope of the sample lines, bucket `mybucket`, the
given status and every other optional field absent. -/
def plainEvent (status : Int) : S3ServerAccess :=
  { PantherLogType := "AWS.S3ServerAccess"
    PantherEventTime := some { unixSec := 1549411238, nsec := 0 }
    PantherAnyIPAddresses := ["192.0.2.3"]
    PantherAnyAWSARNs := []
    BucketOwner := some owner
    Bucket := some "mybucket"
    Time := some { unixSec := 1549411238, nsec := 0 }
    RemoteIP := some "192.0.2.3"
    Requester := none
    RequestID := none
    Operation := none
    Key := none
    RequestURI := none
    HTTPStatus := some status
    ErrorCode := none
    BytesSent := none
    ObjectSize := none
    TotalTime := none
    TurnAroundTime := none
    Referrer := none
    UserAgent := none
    VersionID := none
    HostID := none
    SignatureVersion := none
    CipherSuite := none
    AuthenticationType := none
    HostHeader := none
    TLSVersion := none
    AdditionalFields := [] }

/-- The event of `arnLine`. -/
def arnEvent : S3ServerAccess :=
  { plainEvent 200 with
    Requester := some "arn:aws:iam::123456789012:user/alice"
    PantherAnyAWSARNs := ["arn:aws:iam::123456789012:user/alice"]
    AdditionalFields := ["extra", "-"] }

/-- A line of 25 columns with a well-formed timestamp and the sentinel as
bucket owner. -/
def noOwnerLine : String :=
  "- mybucket [06/Feb/2019:00:00:38 +0000] 192.0.2.3 - - - - - 200 - - - - - - - - - - - - - -"

/-- The columns of `noOwnerLine`. -/
def noOwnerRecord : List String :=
  ["-", "mybucket", "[06/Feb/2019:00:00:38", "+0000]", "192.0.2.3", "-", "-", "-", "-", "-",
   "200", "-", "-", "-", "-", "-", "-", "-", "-", "-", "-", "-", "-", "-", "-"]

/-- The columns of a line of 25 columns with the given owner, timestamp
tokens, remote address and status, bucket `mybucket` and the sentinel
elsewhere. -/
def plainRecord (owner time zone ip status : String) : List String :=
  [owner, "mybucket", time, zone, ip, "-", "-", "-", "-", "-",
   status, "-", "-", "-", "-", "-", "-", "-", "-", "-", "-", "-", "-", "-", "-"]

/-- A line of 25 columns whose status code is 600. -/
def status600Line : String :=
  "79a59df900b949e55d96a1e698fbacedfd6e09d98eacf8f8d5218e7cd47ef2be mybucket [06/Feb/2019:00:00:38 +0000] 192.0.2.3 - - - - - 600 - - - - - - - - - - - - - -"

/-- A line of 25 columns whose status code is 601. -/
def status601Line : String :=
  "79a59df900b949e55d96a1e698fbacedfd6e09d98eacf8f8d5218e7cd47ef2be mybucket [06/Feb/2019:00:00:38 +0000] 192.0.2.3 - - - - - 601 - - - - - - - - - - - - - -"

/-- A line of 25 columns whose bucket owner is the 11-character text
`79a59df9...`, dots included. -/
def abbreviatedLine : String :=
  "79a59df9... mybucket [06/Feb/2019:00:00:38 +0000] 192.0.2.3 - - - - - 200 - - - - - - - - - - - - - -"

/-- The line of the concrete scenario with a full 64-character owner. -/
def scenarioLine : String :=
  "79a59df900b949e55d96a1e698fbacedfd6e09d98eacf8f8d5218e7cd47ef2be mybucket [06/Feb/2019:00:00:38 +0000] 192.0.2.3 - - - - - 200 - - - - - - - - - - - - - -"

/-- A line of 25 columns whose timestamp names no month. -/
def badTimeLine : String :=
  "79a59df900b949e55d96a1e698fbacedfd6e09d98eacf8f8d5218e7cd47ef2be mybucket [06/Foo/2019:00:00:38 +0000] 192.0.2.3 - - - - - 200 - - - - - - - - - - - - - -"

/-- A line of 25 columns whose remote address and requester are the
sentinel. -/
def noIndicatorLine : String :=
  "79a59df900b949e55d96a1e698fbacedfd6e09d98eacf8f8d5218e7cd47ef2be mybucket [06/Feb/2019:00:00:38 +0000] - - - - - - 200 - - - - - - - - - - - - - -"

/-- The event of `noIndicatorLine`. -/
def noIndicatorEvent : S3ServerAccess :=
  { plainEvent 200 with RemoteIP := none, PantherAnyIPAddresses := [] }

end Samples


namespace Samples

/-- A line of 25 columns whose status code is not a number. -/
def nonNumericStatusLine : String :=
  "79a59df900b949e55d96a1e698fbacedfd6e09d98eacf8f8d5218e7cd47ef2be mybucket [06/Feb/2019:00:00:38 +0000] 192.0.2.3 - - - - - OK - - - - - - - - - - - - - -"

/-- The documentation's sample line with its bytes-sent column (column 13)
replaced by a token that is not an integer. -/
def malformedBytesLine : String :=
  "79a59df900b949e55d96a1e698fbacedfd6e09d98eacf8f8d5218e7cd47ef2be awsexamplebucket [06/Feb/2019:00:00:38 +0000] 192.0.2.3 79a59df900b949e55d96a1e698fbacedfd6e09d98eacf8f8d5218e7cd47ef2be 3E57427F3EXAMPLE REST.GET.VERSIONING - \"GET /awsexamplebucket?versioning HTTP/1.1\" 200 - 1x3 - 7 - \"-\" \"S3Console\" - s9lzHYrFp76ZVxRcpX9+5cjAnEH2ROuNkd2BHfIa6UkFVdtjf5mKR3/eTPFvsiP/XV/VLi31234= SigV2 ECDHE-RSA-AES128-GCM-SHA256 AuthHeader awsexamplebucket.s3.amazonaws.com TLSV1.1"

end Samples

/-! ## The bulk-upload response reader (`operations/bulk_upload_responses.go`)

The payload types `models.BulkUploadResult` and `models.Error` are type
parameters `R` and `E`; their zero values (`new(...)`) are `default`. -/

namespace operations

/-- An error value handed back by the consumer: `io.EOF` or any other
error. -/
inductive ConsumerError where
  | EOF
  | other (message : String)
deriving DecidableEq, Repr

/-- What `ReadResponse` reads of a `runtime.ClientResponse`: the status code
and the body. -/
structure ClientResponse where
  Code : Int
  Body : String
deriving DecidableEq, Repr

/-- A `runtime.Consumer`: `Consume(body, target)` fills the target it is given
and returns an error or nil, here one function for each of the two payload
types that the reader passes as target. -/
structure Consumer (R E : Type) where
  ConsumeResult : String → R → R × Option ConsumerError
  ConsumeError : String → E → E × Option ConsumerError

/-- The success response; `Payload` is a pointer. -/
structure BulkUploadOK (R : Type) where
  Payload : Option R
deriving DecidableEq, Repr

/-- The bad-request response; `Payload` is a pointer. -/
structure BulkUploadBadRequest (E : Type) where
  Payload : Option E
deriving DecidableEq, Repr

/-- The internal-server-error response, a struct without fields. -/
structure BulkUploadInternalServerError where
deriving DecidableEq, Repr

/-- The values that `ReadResponse` returns as its `error`: an error of the
consumer, a `*BulkUploadBadRequest`, a `*BulkUploadInternalServerError`, or
the `runtime.APIError` built by `runtime.NewAPIError`. -/
inductive ResponseError (E : Type) where
  | consumer (err : ConsumerError)
  | badRequest (result : BulkUploadBadRequest E)
  | internalServerError (result : BulkUploadInternalServerError)
  | apiError (operationName : String) (response : ClientResponse) (code : Int)
deriving DecidableEq, Repr

/-- `NewBulkUploadOK` creates a `BulkUploadOK` with a nil payload. -/
def NewBulkUploadOK {R : Type} : BulkUploadOK R :=
  { Payload := none }

/-- `NewBulkUploadBadRequest` creates a `BulkUploadBadRequest` with a nil
payload. -/
def NewBulkUploadBadRequest {E : Type} : BulkUploadBadRequest E :=
  { Payload := none }

/-- `NewBulkUploadInternalServerError` creates the empty struct. -/
def NewBulkUploadInternalServerError : BulkUploadInternalServerError :=
  {}

/-- The test `err != nil && err != io.EOF` on what `Consume` returned: the
error to return, if any. -/
def consumeFailure (err : Option ConsumerError) : Option ConsumerError :=
  match err with
  | none => none
  | some e => if e ≠ ConsumerError.EOF then some e else none

/-- The method `(*BulkUploadOK).readResponse`: allocates the payload, lets the
consumer fill it from the body, and returns the consumer's error unless it is
nil or `io.EOF`. Returns the receiver after the call and the error. -/
def BulkUploadOK.readResponse {R E : Type} [Inhabited R] (_o : BulkUploadOK R)
    (response : ClientResponse) (consumer : Consumer R E) :
    BulkUploadOK R × Option ConsumerError :=
  ({ Payload := some (consumer.ConsumeResult response.Body default).1 },
    consumeFailure (consumer.ConsumeResult response.Body default).2)

/-- The method `(*BulkUploadBadRequest).readResponse`, built like the one of
`BulkUploadOK`. -/
def BulkUploadBadRequest.readResponse {R E : Type} [Inhabited E] (_o : BulkUploadBadRequest E)
    (response : ClientResponse) (consumer : Consumer R E) :
    BulkUploadBadRequest E × Option ConsumerError :=
  ({ Payload := some (consumer.ConsumeError response.Body default).1 },
    consumeFailure (consumer.ConsumeError response.Body default).2)

/-- The method `(*BulkUploadInternalServerError).readResponse`: reads nothing
and returns nil. -/
def BulkUploadInternalServerError.readResponse {R E : Type}
    (o : BulkUploadInternalServerError) (_response : ClientResponse)
    (_consumer : Consumer R E) : BulkUploadInternalServerError × Option ConsumerError :=
  (o, none)

/-- The method `BulkUploadReader.ReadResponse`: the pair `(result, error)` it
returns, `none` standing for nil. -/
def ReadResponse {R E : Type} [Inhabited R] [Inhabited E] (response : ClientResponse)
    (consumer : Consumer R E) : Option (BulkUploadOK R) × Option (ResponseError E) :=
  if response.Code = 200 then
    match (NewBulkUploadOK : BulkUploadOK R).readResponse response consumer with
    | (_, some err) => (none, some (.consumer err))
    | (result, none) => (some result, none)
  else if response.Code = 400 then
    match (NewBulkUploadBadRequest : BulkUploadBadRequest E).readResponse response consumer with
    | (_, some err) => (none, some (.consumer err))
    | (result, none) => (none, some (.badRequest result))
  else if response.Code = 500 then
    match NewBulkUploadInternalServerError.readResponse response consumer with
    | (_, some err) => (none, some (.consumer err))
    | (result, none) => (none, some (.internalServerError result))
  else (none, some (.apiError "unknown error" response response.Code))

/-- A consumer that takes the body as the payload and fails on an empty
body. -/
def sampleConsumer : Consumer String String where
  ConsumeResult := fun body target =>
    if body.isEmpty then (target, some (.other "unexpected end of input")) else (body, none)
  ConsumeError := fun body target =>
    if body.isEmpty then (target, some (.other "unexpected end of input")) else (body, none)

end operations

namespace parsers

/-- The re-encoding of a decoded optional string that the spec speaks of:
absent gives the sentinel, present gives the value. -/
def reencodeString (v : Option String) : String :=
  match v with
  | none => "-"
  | some s => s

/-- The re-encoding of a decoded optional number that the spec speaks of:
absent gives the sentinel, present gives the decimal text of the value. -/
def reencodeInt (v : Option Int) : String :=
  match v with
  | none => "-"
  | some n => toString n

end parsers
/-! ## Auxiliary lemmas -/

namespace parsers

theorem index_eq (record : List String) (i : Nat) (h : i < record.length) :
    index record i = some (record.getD i "") := by
  simp [index, List.getD, List.getElem?_eq_getElem h]

theorem Panics.bind_some {α β : Type} (a : α) (f : α → Panics β) :
    Panics.bind (some a : Panics α) f = f a := rfl

theorem getD_of_getElem? (record : List String) (i : Nat) (tok : String)
    (h : record[i]? = some tok) : record.getD i "" = tok := by
  simp [List.getD, h]

end parsers

namespace S3ServerAccess

/-- Enrichment changes nothing but the embedded envelope. -/
theorem updatePantherFields_eq (e : S3ServerAccess) :
    e.updatePantherFields =
      { e with toAWSPantherLog := e.updatePantherFields.toAWSPantherLog } := by
  unfold updatePantherFields
  simp only []
  split
  · split <;> rfl
  · rfl

/-- The envelope after enrichment. -/
theorem updatePantherFields_envelope (e : S3ServerAccess) :
    e.updatePantherFields.toAWSPantherLog =
      { PantherLogType := S3ServerAccessParser.LogType
        PantherEventTime := e.Time
        PantherAnyIPAddresses :=
          match e.RemoteIP with
          | some v =>
            if net.ParseIP v then parsers.appendAnyString e.PantherAnyIPAddresses v
            else e.PantherAnyIPAddresses
          | none => e.PantherAnyIPAddresses
        PantherAnyAWSARNs :=
          match e.Requester with
          | some r =>
            if strings.HasPrefix r "arn:" then parsers.appendAnyString e.PantherAnyAWSARNs r
            else e.PantherAnyAWSARNs
          | none => e.PantherAnyAWSARNs } := by
  rcases hq : e.Requester with _ | r <;> rcases hi : e.RemoteIP with _ | v
  · simp [updatePantherFields, AWSPantherLog.AppendAnyIPAddressPtrs,
      AWSPantherLog.SetCoreFieldsPtr, hq, hi]
  · by_cases hv : net.ParseIP v = true <;>
      simp [updatePantherFields, AWSPantherLog.AppendAnyIPAddressPtrs,
        AWSPantherLog.SetCoreFieldsPtr, hq, hi, hv]
  · by_cases hr : strings.HasPrefix r "arn:" = true <;>
      simp [updatePantherFields, AWSPantherLog.AppendAnyIPAddressPtrs,
        AWSPantherLog.AppendAnyAWSARNs, AWSPantherLog.SetCoreFieldsPtr, hq, hi, hr]
  · by_cases hv : net.ParseIP v = true <;> by_cases hr : strings.HasPrefix r "arn:" = true <;>
      simp [updatePantherFields, AWSPantherLog.AppendAnyIPAddressPtrs,
        AWSPantherLog.AppendAnyAWSARNs, AWSPantherLog.SetCoreFieldsPtr, hq, hi, hv, hr]

end S3ServerAccess

namespace parsers

theorem CsvStringToPointer_ne_sentinel (value : String) :
    CsvStringToPointer value ≠ some "-" := by
  unfold CsvStringToPointer
  split
  · simp
  · intro h
    simp_all

theorem CsvStringToPointer_column (record : List String) (i : Nat)
    (h : record[i]? = some "-") : CsvStringToPointer (record.getD i "") = none := by
  rw [getD_of_getElem? record i "-" h]
  rfl

theorem CsvStringToIntPointer_column (record : List String) (i : Nat)
    (h : record[i]? = some "-") : CsvStringToIntPointer (record.getD i "") = none := by
  rw [getD_of_getElem? record i "-" h]
  rfl

end parsers

namespace S3ServerAccessParser

open parsers

/-- A first record with fewer than 25 columns: `Parse` returns nil. -/
theorem Parse_short (log : String) (record : List String) (rest : List (List String))
    (hread : csv.ReadAll log = .ok (record :: rest)) (hshort : record.length < 25) :
    Parse log = some [] := by
  unfold Parse
  rw [hread]
  simp [s3ServerAccessMinNumberOfColumns, hshort]

/-- What `Parse` computes from a first record of at least 25 columns. -/
theorem Parse_record (log : String) (record : List String) (rest : List (List String))
    (hread : csv.ReadAll log = .ok (record :: rest)) (hlen : 25 ≤ record.length) :
    Parse log =
      match timestamp.Parse (record.getD 2 "" ++ record.getD 3 "") with
      | none => some []
      | some t =>
        if Validator.Struct (eventOf record t).updatePantherFields
        then some [(eventOf record t).updatePantherFields] else some [] := by
  have hnot : ¬ record.length < s3ServerAccessMinNumberOfColumns := by
    simp [s3ServerAccessMinNumberOfColumns]; omega
  unfold Parse
  rw [hread]
  simp only [hnot, if_false]
  simp (disch := omega) only [index_eq, bind, Panics.bind_some, pure]
  cases timestamp.Parse (record.getD 2 "" ++ record.getD 3 "") with
  | none => rfl
  | some t =>
    simp only []
    by_cases h25 : record.length > 25
    · have hs : sliceFrom record 25 = some (record.drop 25) := by
        simp [sliceFrom]; omega
      simp only [h25, if_true, hs, Panics.bind_some]
      rfl
    · have hd : record.drop 25 = [] := by
        apply List.drop_eq_nil_of_le; omega
      simp only [h25, if_false, Panics.bind_some]
      unfold eventOf
      rw [hd]

/-- An emitted event comes from a record of at least 25 columns whose
timestamp parses, is the enriched populated event, and passes validation. -/
theorem Parse_emits (log : String) (record : List String) (rest : List (List String))
    (e : S3ServerAccess) (hread : csv.ReadAll log = .ok (record :: rest))
    (hemit : Parse log = some [e]) :
    25 ≤ record.length ∧
      ∃ t, timestamp.Parse (record.getD 2 "" ++ record.getD 3 "") = some t ∧
        e = (eventOf record t).updatePantherFields ∧ Validator.Struct e = true := by
  by_cases hlen : 25 ≤ record.length
  · refine ⟨hlen, ?_⟩
    rw [Parse_record log record rest hread hlen] at hemit
    cases ht : timestamp.Parse (record.getD 2 "" ++ record.getD 3 "") with
    | none => rw [ht] at hemit; simp at hemit
    | some t =>
      rw [ht] at hemit
      simp only [] at hemit
      by_cases hv : Validator.Struct (eventOf record t).updatePantherFields = true
      · rw [if_pos hv] at hemit
        have he : (eventOf record t).updatePantherFields = e := by
          simpa using hemit
        exact ⟨t, rfl, he.symm, he ▸ hv⟩
      · rw [if_neg hv] at hemit
        simp at hemit
  · have := Parse_short log record rest hread (by omega)
    rw [this] at hemit
    simp at hemit

end S3ServerAccessParser

namespace S3ServerAccessParser

open parsers

/-- An emitted event is the populated event with the enriched envelope. -/
theorem Parse_emits_eq (log : String) (record : List String) (rest : List (List String))
    (e : S3ServerAccess) (hread : csv.ReadAll log = .ok (record :: rest))
    (hemit : Parse log = some [e]) :
    ∃ t, timestamp.Parse (record.getD 2 "" ++ record.getD 3 "") = some t ∧
      e = { eventOf record t with
            PantherLogType := LogType
            PantherEventTime := some t
            PantherAnyIPAddresses :=
              match CsvStringToPointer (record.getD 4 "") with
              | some v => if net.ParseIP v then [v] else []
              | none => []
            PantherAnyAWSARNs :=
              match CsvStringToPointer (record.getD 5 "") with
              | some r => if strings.HasPrefix r "arn:" then [r] else []
              | none => [] } := by
  obtain ⟨_, t, ht, he, _⟩ := Parse_emits log record rest e hread hemit
  refine ⟨t, ht, ?_⟩
  rw [he, S3ServerAccess.updatePantherFields_eq, S3ServerAccess.updatePantherFields_envelope]
  simp [eventOf, appendAnyString]

/-- Validation of the enriched populated event, in terms of the two columns
that carry declared rules. -/
theorem Struct_eventOf (record : List String) (t : timestamp.RFC3339) :
    Validator.Struct (eventOf record t).updatePantherFields =
      (Validator.bucketOwnerOk (CsvStringToPointer (record.getD 0 ""))
        && Validator.httpStatusOk (CsvStringToIntPointer (record.getD 10 ""))) := by
  unfold Validator.Struct
  rw [S3ServerAccess.updatePantherFields_eq, S3ServerAccess.updatePantherFields_envelope]
  simp [eventOf, LogType]

end S3ServerAccessParser

/-! ## The claims -/

namespace S3ServerAccessParser

open parsers Samples

/-- C1. For every input whose first tokenized record has fewer than 25
columns, `Parse` returns the empty (nil) result: no event, and so no partly
populated event, is emitted. -/
theorem parse_fewer_than_25_columns (log : String) (record : List String)
    (rest : List (List String)) (hread : csv.ReadAll log = .ok (record :: rest))
    (hshort : record.length < 25) : Parse log = some [] :=
  Parse_short log record rest hread hshort

/-- C1, on the first 24 columns of the documentation's sample line. -/
theorem parse_fewer_than_25_columns_witness :
    csv.ReadAll shortLine = .ok [docRecord.take 24] ∧ (docRecord.take 24).length < 25 ∧
      Parse shortLine = some [] :=
  ⟨by decide, by decide,
    parse_fewer_than_25_columns shortLine (docRecord.take 24) [] (by decide) (by decide)⟩

/-- C2 as stated fails: `noOwnerLine` tokenizes into 25 columns and its
columns 3 and 4 concatenate to a well-formed timestamp, yet `Parse` returns
the empty result, because validation rejects the absent bucket owner. -/
theorem parse_timestamp_ok_yet_rejected :
    csv.ReadAll noOwnerLine = .ok [noOwnerRecord] ∧ 25 ≤ noOwnerRecord.length ∧
      noOwnerRecord[2]? = some "[06/Feb/2019:00:00:38" ∧ noOwnerRecord[3]? = some "+0000]" ∧
      timestamp.Parse ("[06/Feb/2019:00:00:38" ++ "+0000]")
        = some (timestamp.Date 2019 2 6 0 0 38 0) ∧
      Parse noOwnerLine = some [] := by
  decide

/-- C2, amended. For every line that tokenizes into at least 25 columns, whose
columns 3 and 4 concatenate to a string that parses against the layout, whose
bucket-owner column is 64 alphanumeric characters and whose status-code column
decodes to an integer from 100 to 600, `Parse` returns exactly one event, and
that event's `Time` is the result of parsing `record[2] + record[3]`. -/
theorem parse_emits_one_event_with_time (log : String) (record : List String)
    (rest : List (List String)) (date zone owner status : String) (t : timestamp.RFC3339)
    (n : Int) (hread : csv.ReadAll log = .ok (record :: rest)) (hlen : 25 ≤ record.length)
    (hdate : record[2]? = some date) (hzone : record[3]? = some zone)
    (htime : timestamp.Parse (date ++ zone) = some t)
    (howner : record[0]? = some owner) (hlen64 : owner.length = 64)
    (halnum : Validator.alphanum owner = true)
    (hstatus : record[10]? = some status) (hdecode : CsvStringToIntPointer status = some n)
    (hmin : 100 ≤ n) (hmax : n ≤ 600) :
    ∃ e, Parse log = some [e] ∧ e.Time = some t := by
  have hsentinel : owner ≠ "-" := by
    intro h
    rw [h] at hlen64
    exact absurd hlen64 (by decide)
  have hvalid : Validator.Struct (eventOf record t).updatePantherFields = true := by
    rw [Struct_eventOf, getD_of_getElem? record 0 owner howner,
      getD_of_getElem? record 10 status hstatus, hdecode]
    simp [Validator.bucketOwnerOk, Validator.httpStatusOk, CsvStringToPointer, hsentinel,
      hlen64, halnum, hmin, hmax]
  refine ⟨(eventOf record t).updatePantherFields, ?_, ?_⟩
  · rw [Parse_record log record rest hread hlen, getD_of_getElem? record 2 date hdate,
      getD_of_getElem? record 3 zone hzone, htime]
    simp [hvalid]
  · rw [S3ServerAccess.updatePantherFields_eq]
    rfl

/-- C2 amended, on the documentation's sample line. -/
theorem parse_emits_one_event_with_time_witness :
    ∃ e, Parse docLine = some [e] ∧ e.Time = some (timestamp.Date 2019 2 6 0 0 38 0) :=
  parse_emits_one_event_with_time docLine docRecord [] "[06/Feb/2019:00:00:38" "+0000]" owner
    "200" (timestamp.Date 2019 2 6 0 0 38 0) 200 (by decide) (by decide) (by decide)
    (by decide) (by decide) (by decide) (by decide) (by decide) (by decide) (by decide)
    (by decide) (by decide)

end S3ServerAccessParser

namespace S3ServerAccessParser

open parsers Samples

/-- C3 as stated fails at n = 600: the status-code column of `status600Line`
decodes to 600, which is outside the half-open interval [100, 600), yet
`Parse` returns an event. -/
theorem parse_status_600_accepted :
    csv.ReadAll status600Line
        = .ok [plainRecord owner "[06/Feb/2019:00:00:38" "+0000]" "192.0.2.3" "600"] ∧
      (plainRecord owner "[06/Feb/2019:00:00:38" "+0000]" "192.0.2.3" "600")[10]? = some "600" ∧
      CsvStringToIntPointer "600" = some 600 ∧
      Parse status600Line = some [plainEvent 600] ∧ Parse status600Line ≠ some [] := by
  decide

/-- C3, amended. For every line whose status-code column (column 11) decodes
to an integer n with n < 100 or n > 600, `Parse` returns the empty result. -/
theorem parse_status_out_of_range (log : String) (record : List String)
    (rest : List (List String)) (status : String) (n : Int)
    (hread : csv.ReadAll log = .ok (record :: rest)) (hstatus : record[10]? = some status)
    (hdecode : CsvStringToIntPointer status = some n) (hrange : n < 100 ∨ 600 < n) :
    Parse log = some [] := by
  by_cases hlen : 25 ≤ record.length
  · rw [Parse_record log record rest hread hlen]
    cases timestamp.Parse (record.getD 2 "" ++ record.getD 3 "") with
    | none => rfl
    | some t =>
      have hinvalid : Validator.Struct (eventOf record t).updatePantherFields = false := by
        rw [Struct_eventOf, getD_of_getElem? record 10 status hstatus, hdecode]
        have : Validator.httpStatusOk (some n) = false := by
          simp only [Validator.httpStatusOk, Bool.and_eq_false_imp, decide_eq_true_eq,
            decide_eq_false_iff_not]
          omega
        rw [this, Bool.and_false]
      simp [hinvalid]
  · exact Parse_short log record rest hread (by omega)

/-- C3 amended, on a line whose status code is 601. -/
theorem parse_status_out_of_range_witness :
    CsvStringToIntPointer "601" = some 601 ∧ Parse status601Line = some [] :=
  ⟨by decide,
    parse_status_out_of_range status601Line
      (plainRecord owner "[06/Feb/2019:00:00:38" "+0000]" "192.0.2.3" "601") [] "601" 601
      (by decide) (by decide) (by decide) (by decide)⟩

/-- C4. Concrete scenario: for every line with at least 25 columns whose first
column is the canonical user ID that `79a59df9...` abbreviates (it begins
`79a59df9` and is 64 alphanumeric characters), whose second column is
`mybucket`, whose timestamp tokens are `[06/Feb/2019:00:00:38` and `+0000]`,
whose fifth column is `192.0.2.3` and whose status-code column is a valid
status code (it decodes to an integer from 100 to 600, as every 3-digit code
from 100 to 599 does), `Parse` returns exactly one event, with bucket
`mybucket`, event time 2019-02-06T00:00:38Z (1549411238 seconds after the
epoch) and IP indicator set {`192.0.2.3`}. -/
theorem parse_concrete_scenario (log : String) (record : List String)
    (rest : List (List String)) (owner status : String) (n : Int)
    (hread : csv.ReadAll log = .ok (record :: rest)) (hlen : 25 ≤ record.length)
    (howner : record[0]? = some owner)
    (_hbegins : strings.HasPrefix owner "79a59df9" = true) (hlen64 : owner.length = 64)
    (halnum : Validator.alphanum owner = true)
    (hbucket : record[1]? = some "mybucket")
    (hdate : record[2]? = some "[06/Feb/2019:00:00:38") (hzone : record[3]? = some "+0000]")
    (hip : record[4]? = some "192.0.2.3")
    (hstatus : record[10]? = some status) (hdecode : CsvStringToIntPointer status = some n)
    (hmin : 100 ≤ n) (hmax : n ≤ 600) :
    ∃ e, Parse log = some [e] ∧ e.Bucket = some "mybucket" ∧
      e.PantherEventTime = some (timestamp.Date 2019 2 6 0 0 38 0) ∧
      e.Time = some (timestamp.Date 2019 2 6 0 0 38 0) ∧
      timestamp.Date 2019 2 6 0 0 38 0 = { unixSec := 1549411238, nsec := 0 } ∧
      e.PantherAnyIPAddresses = ["192.0.2.3"] := by
  have htime : timestamp.Parse ("[06/Feb/2019:00:00:38" ++ "+0000]")
      = some (timestamp.Date 2019 2 6 0 0 38 0) := by decide
  have hsentinel : owner ≠ "-" := by
    intro h
    rw [h] at hlen64
    exact absurd hlen64 (by decide)
  have hvalid : Validator.Struct
      (eventOf record (timestamp.Date 2019 2 6 0 0 38 0)).updatePantherFields = true := by
    rw [Struct_eventOf, getD_of_getElem? record 0 owner howner,
      getD_of_getElem? record 10 status hstatus, hdecode]
    simp [Validator.bucketOwnerOk, Validator.httpStatusOk, CsvStringToPointer, hsentinel,
      hlen64, halnum, hmin, hmax]
  have hparse : Parse log
      = some [(eventOf record (timestamp.Date 2019 2 6 0 0 38 0)).updatePantherFields] := by
    rw [Parse_record log record rest hread hlen, getD_of_getElem? record 2 _ hdate,
      getD_of_getElem? record 3 _ hzone, htime]
    simp [hvalid]
  obtain ⟨t, ht, he⟩ := Parse_emits_eq log record rest _ hread hparse
  rw [getD_of_getElem? record 2 _ hdate, getD_of_getElem? record 3 _ hzone, htime] at ht
  have ht' : t = timestamp.Date 2019 2 6 0 0 38 0 := (Option.some.inj ht).symm
  subst ht'
  have hipOk : net.ParseIP "192.0.2.3" = true := by decide
  have hinstant : timestamp.Date 2019 2 6 0 0 38 0 = { unixSec := 1549411238, nsec := 0 } := by
    decide
  refine ⟨_, hparse, ?_⟩
  rw [he]
  refine ⟨?_, rfl, rfl, hinstant, ?_⟩
  · simp [eventOf, hbucket, CsvStringToPointer]
  · simp [eventOf, hip, CsvStringToPointer, hipOk]

/-- C4, on the scenario's line with the full 64-character owner
`79a59df900b9...f2be` of the format's documentation and status 200. -/
theorem parse_concrete_scenario_witness :
    owner = "79a59df900b949e55d96a1e698fbacedfd6e09d98eacf8f8d5218e7cd47ef2be" ∧
      csv.ReadAll scenarioLine
        = .ok [plainRecord owner "[06/Feb/2019:00:00:38" "+0000]" "192.0.2.3" "200"] ∧
      Parse scenarioLine = some [plainEvent 200] ∧
      ∃ e, Parse scenarioLine = some [e] ∧ e.Bucket = some "mybucket" ∧
        e.PantherEventTime = some (timestamp.Date 2019 2 6 0 0 38 0) ∧
        e.Time = some (timestamp.Date 2019 2 6 0 0 38 0) ∧
        timestamp.Date 2019 2 6 0 0 38 0 = { unixSec := 1549411238, nsec := 0 } ∧
        e.PantherAnyIPAddresses = ["192.0.2.3"] :=
  ⟨by decide, by decide, by decide,
    parse_concrete_scenario scenarioLine
      (plainRecord owner "[06/Feb/2019:00:00:38" "+0000]" "192.0.2.3" "200") [] owner "200" 200
      (by decide) (by decide) (by decide) (by decide) (by decide) (by decide) (by decide)
      (by decide) (by decide) (by decide) (by decide) (by decide) (by decide) (by decide)⟩

/-- C5. For every line on which `Parse` emits an event, with tokenized record
`record`: the record has at least 25 columns and the event's
`AdditionalFields` is exactly the columns from position 26 on, in their order
and with their string values as tokenized (none when there are 25 columns). -/
theorem parse_additional_fields (log : String) (record : List String)
    (rest : List (List String)) (e : S3ServerAccess)
    (hread : csv.ReadAll log = .ok (record :: rest)) (hemit : Parse log = some [e]) :
    25 ≤ record.length ∧ e.AdditionalFields = record.drop 25 ∧
      (record.length = 25 → e.AdditionalFields = []) := by
  obtain ⟨hlen, _⟩ := Parse_emits log record rest e hread hemit
  obtain ⟨t, _, he⟩ := Parse_emits_eq log record rest e hread hemit
  have hfields : e.AdditionalFields = record.drop 25 := by
    rw [he]
    rfl
  refine ⟨hlen, hfields, ?_⟩
  intro h25
  rw [hfields]
  exact List.drop_eq_nil_of_le (by omega)

/-- C5, on a line of 27 columns whose last column is the sentinel. -/
theorem parse_additional_fields_witness :
    csv.ReadAll arnLine = .ok [arnRecord] ∧ Parse arnLine = some [arnEvent] ∧
      arnRecord.drop 25 = ["extra", "-"] ∧
      (25 ≤ arnRecord.length ∧ arnEvent.AdditionalFields = arnRecord.drop 25 ∧
        (arnRecord.length = 25 → arnEvent.AdditionalFields = [])) :=
  ⟨by decide, by decide, by decide,
    parse_additional_fields arnLine arnRecord [] arnEvent (by decide) (by decide)⟩

end S3ServerAccessParser

namespace S3ServerAccessParser

open parsers Samples

/-- C6. For every event emitted by `Parse` and every optional field of the
fixed schema (columns 1-2 and 5-25): if the column's token is the sentinel `-`
then the field is absent; and no optional string field of an emitted event
holds the literal string `-`. -/
theorem parse_sentinel_is_absent (log : String) (record : List String)
    (rest : List (List String)) (e : S3ServerAccess)
    (hread : csv.ReadAll log = .ok (record :: rest)) (hemit : Parse log = some [e]) :
    (∀ p ∈ e.stringFields, (record[p.1]? = some "-" → p.2 = none) ∧ p.2 ≠ some "-") ∧
      (∀ p ∈ e.intFields, record[p.1]? = some "-" → p.2 = none) := by
  obtain ⟨t, _, he⟩ := Parse_emits_eq log record rest e hread hemit
  constructor
  · intro p hp
    rw [he] at hp
    simp only [S3ServerAccess.stringFields, eventOf, List.mem_cons, List.mem_singleton,
      List.not_mem_nil, or_false] at hp
    rcases hp with h | h | h | h | h | h | h | h | h | h | h | h | h | h | h | h | h | h
    all_goals
      subst h
      exact ⟨CsvStringToPointer_column record _, CsvStringToPointer_ne_sentinel _⟩
  · intro p hp
    rw [he] at hp
    simp only [S3ServerAccess.intFields, eventOf, List.mem_cons, List.mem_singleton,
      List.not_mem_nil, or_false] at hp
    rcases hp with h | h | h | h | h
    all_goals
      subst h
      exact CsvStringToIntPointer_column record _

/-- C6, on the documentation's sample line, whose columns 9, 12, 14, 16, 17
and 19 are the sentinel. -/
theorem parse_sentinel_is_absent_witness :
    csv.ReadAll docLine = .ok [docRecord] ∧ Parse docLine = some [docEvent] ∧
      docRecord[8]? = some "-" ∧ docEvent.Key = none ∧
      ((∀ p ∈ docEvent.stringFields, (docRecord[p.1]? = some "-" → p.2 = none) ∧ p.2 ≠ some "-") ∧
        (∀ p ∈ docEvent.intFields, docRecord[p.1]? = some "-" → p.2 = none)) :=
  ⟨by decide, by decide, by decide, by decide,
    parse_sentinel_is_absent docLine docRecord [] docEvent (by decide) (by decide)⟩

end S3ServerAccessParser

namespace S3ServerAccessParser

open parsers Samples

/-- C7. For every line on which `Parse` emits an event and whose requester
column (column 6) begins with `arn:`, the event's ARN indicator set holds
exactly that requester value, character for character. -/
theorem parse_arn_requester_indicator (log : String) (record : List String)
    (rest : List (List String)) (e : S3ServerAccess) (requester : String)
    (hread : csv.ReadAll log = .ok (record :: rest)) (hemit : Parse log = some [e])
    (hreq : record[5]? = some requester) (harn : strings.HasPrefix requester "arn:" = true) :
    requester ∈ e.PantherAnyAWSARNs ∧ e.PantherAnyAWSARNs = [requester] := by
  obtain ⟨t, _, he⟩ := Parse_emits_eq log record rest e hread hemit
  have hsentinel : requester ≠ "-" := by
    intro h
    rw [h] at harn
    exact absurd harn (by decide)
  have hset : e.PantherAnyAWSARNs = [requester] := by
    rw [he]
    simp [hreq, CsvStringToPointer, hsentinel, harn]
  rw [hset]
  exact ⟨List.mem_singleton.mpr rfl, rfl⟩

/-- C7, on a line whose requester is an IAM user ARN. -/
theorem parse_arn_requester_indicator_witness :
    csv.ReadAll arnLine = .ok [arnRecord] ∧ Parse arnLine = some [arnEvent] ∧
      arnRecord[5]? = some "arn:aws:iam::123456789012:user/alice" ∧
      ("arn:aws:iam::123456789012:user/alice" ∈ arnEvent.PantherAnyAWSARNs ∧
        arnEvent.PantherAnyAWSARNs = ["arn:aws:iam::123456789012:user/alice"]) :=
  ⟨by decide, by decide, by decide,
    parse_arn_requester_indicator arnLine arnRecord [] arnEvent
      "arn:aws:iam::123456789012:user/alice" (by decide) (by decide) (by decide) (by decide)⟩

/-- C8. For every line on which `Parse` emits an event and whose
remote-address column (column 5) is a syntactically valid IPv4 or IPv6
literal, the event's IP-address indicator set contains that literal. -/
theorem parse_valid_ip_indicator (log : String) (record : List String)
    (rest : List (List String)) (e : S3ServerAccess) (ip : String)
    (hread : csv.ReadAll log = .ok (record :: rest)) (hemit : Parse log = some [e])
    (hip : record[4]? = some ip) (hvalid : net.ParseIP ip = true) :
    ip ∈ e.PantherAnyIPAddresses := by
  obtain ⟨t, _, he⟩ := Parse_emits_eq log record rest e hread hemit
  have hsentinel : ip ≠ "-" := by
    intro h
    rw [h] at hvalid
    exact absurd hvalid (by decide)
  rw [he]
  simp [hip, CsvStringToPointer, hsentinel, hvalid]

/-- C8, on the documentation's sample line, whose remote address is
`192.0.2.3`. -/
theorem parse_valid_ip_indicator_witness :
    csv.ReadAll docLine = .ok [docRecord] ∧ Parse docLine = some [docEvent] ∧
      net.ParseIP "192.0.2.3" = true ∧ "192.0.2.3" ∈ docEvent.PantherAnyIPAddresses :=
  ⟨by decide, by decide, by decide,
    parse_valid_ip_indicator docLine docRecord [] docEvent "192.0.2.3" (by decide) (by decide)
      (by decide) (by decide)⟩

/-- C9. For every event emitted by `Parse`: every member of the IP indicator
set is a syntactically valid IP literal equal to the event's `RemoteIP`, and
every member of the ARN indicator set equals the event's `Requester` and
begins with `arn:`; and when the requester column does not begin with `arn:`
and the remote-address column is not a valid IP literal, both sets are
empty. -/
theorem parse_indicators_sound (log : String) (record : List String)
    (rest : List (List String)) (e : S3ServerAccess)
    (hread : csv.ReadAll log = .ok (record :: rest)) (hemit : Parse log = some [e]) :
    (∀ x ∈ e.PantherAnyIPAddresses, net.ParseIP x = true ∧ e.RemoteIP = some x) ∧
      (∀ x ∈ e.PantherAnyAWSARNs, e.Requester = some x ∧ strings.HasPrefix x "arn:" = true) ∧
      (∀ ip requester, record[4]? = some ip → record[5]? = some requester →
        net.ParseIP ip = false → strings.HasPrefix requester "arn:" = false →
        e.PantherAnyIPAddresses = [] ∧ e.PantherAnyAWSARNs = []) := by
  obtain ⟨t, _, he⟩ := Parse_emits_eq log record rest e hread hemit
  refine ⟨?_, ?_, ?_⟩
  · intro x hx
    rw [he] at hx ⊢
    simp only [eventOf] at hx ⊢
    cases hc : CsvStringToPointer (record.getD 4 "") with
    | none =>
      rw [hc] at hx
      exact absurd hx (List.not_mem_nil x)
    | some v =>
      rw [hc] at hx
      by_cases hv : net.ParseIP v = true
      · have hmem : x ∈ [v] := by simpa only [hv, if_true] using hx
        have hxv : x = v := List.mem_singleton.mp hmem
        subst hxv
        exact ⟨hv, rfl⟩
      · have hmem : x ∈ ([] : List String) := by simpa only [hv] using hx
        exact absurd hmem (List.not_mem_nil x)
  · intro x hx
    rw [he] at hx ⊢
    simp only [eventOf] at hx ⊢
    cases hc : CsvStringToPointer (record.getD 5 "") with
    | none =>
      rw [hc] at hx
      exact absurd hx (List.not_mem_nil x)
    | some r =>
      rw [hc] at hx
      by_cases hr : strings.HasPrefix r "arn:" = true
      · have hmem : x ∈ [r] := by simpa only [hr, if_true] using hx
        have hxr : x = r := List.mem_singleton.mp hmem
        subst hxr
        exact ⟨rfl, hr⟩
      · have hmem : x ∈ ([] : List String) := by simpa only [hr] using hx
        exact absurd hmem (List.not_mem_nil x)
  · intro ip requester hip hreq hinvalid hnoarn
    rw [he]
    simp only [eventOf, getD_of_getElem? record 4 ip hip,
      getD_of_getElem? record 5 requester hreq]
    constructor
    · by_cases h : ip = "-" <;> simp [CsvStringToPointer, h, hinvalid]
    · by_cases h : requester = "-" <;> simp [CsvStringToPointer, h, hnoarn]

/-- C9, on the documentation's sample line (one IP indicator, no ARN) and on
a line whose remote address and requester are the sentinel (no indicator). -/
theorem parse_indicators_sound_witness :
    (csv.ReadAll docLine = .ok [docRecord] ∧ Parse docLine = some [docEvent] ∧
      docEvent.PantherAnyIPAddresses = ["192.0.2.3"] ∧ docEvent.PantherAnyAWSARNs = [] ∧
      ∀ x ∈ docEvent.PantherAnyIPAddresses,
        net.ParseIP x = true ∧ docEvent.RemoteIP = some x) ∧
    (csv.ReadAll noIndicatorLine
        = .ok [plainRecord owner "[06/Feb/2019:00:00:38" "+0000]" "-" "200"] ∧
      Parse noIndicatorLine = some [noIndicatorEvent] ∧
      net.ParseIP "-" = false ∧ strings.HasPrefix "-" "arn:" = false ∧
      noIndicatorEvent.PantherAnyIPAddresses = [] ∧ noIndicatorEvent.PantherAnyAWSARNs = []) :=
  ⟨⟨by decide, by decide, by decide, by decide,
      (parse_indicators_sound docLine docRecord [] docEvent (by decide) (by decide)).1⟩,
    by decide, by decide, by decide, by decide,
    (parse_indicators_sound noIndicatorLine
      (plainRecord owner "[06/Feb/2019:00:00:38" "+0000]" "-" "200") [] noIndicatorEvent
      (by decide) (by decide)).2.2 "-" "-" (by decide) (by decide) (by decide) (by decide)⟩

/-- C10. For every line with at least 25 columns for which the concatenation
of columns 3 and 4 does not parse against the fixed timestamp layout, `Parse`
returns the empty result, whatever the other columns hold. -/
theorem parse_bad_timestamp (log : String) (record : List String)
    (rest : List (List String)) (date zone : String)
    (hread : csv.ReadAll log = .ok (record :: rest)) (hlen : 25 ≤ record.length)
    (hdate : record[2]? = some date) (hzone : record[3]? = some zone)
    (htime : timestamp.Parse (date ++ zone) = none) : Parse log = some [] := by
  rw [Parse_record log record rest hread hlen, getD_of_getElem? record 2 date hdate,
    getD_of_getElem? record 3 zone hzone, htime]

/-- C10, on a line that is valid but for the month name of its timestamp. -/
theorem parse_bad_timestamp_witness :
    csv.ReadAll badTimeLine
        = .ok [plainRecord owner "[06/Foo/2019:00:00:38" "+0000]" "192.0.2.3" "200"] ∧
      timestamp.Parse ("[06/Foo/2019:00:00:38" ++ "+0000]") = none ∧
      Parse badTimeLine = some [] :=
  ⟨by decide, by decide,
    parse_bad_timestamp badTimeLine
      (plainRecord owner "[06/Foo/2019:00:00:38" "+0000]" "192.0.2.3" "200") []
      "[06/Foo/2019:00:00:38" "+0000]" (by decide) (by decide) (by decide) (by decide)
      (by decide)⟩

end S3ServerAccessParser

namespace S3ServerAccessParser

open parsers

/-- An emitted event comes from a tokenization with a first record. -/
theorem Parse_emits_read (log : String) (e : S3ServerAccess) (hemit : Parse log = some [e]) :
    ∃ record rest, csv.ReadAll log = .ok (record :: rest) := by
  cases hread : csv.ReadAll log with
  | error err =>
    unfold Parse at hemit
    rw [hread] at hemit
    simp at hemit
  | ok records =>
    cases records with
    | nil =>
      unfold Parse at hemit
      rw [hread] at hemit
      simp at hemit
    | cons record rest => exact ⟨record, rest, rfl⟩

/-- The result of `Parse` is never a panic and never holds two events. -/
theorem Parse_total (log : String) : Parse log = some [] ∨ ∃ e, Parse log = some [e] := by
  cases hread : csv.ReadAll log with
  | error err =>
    left
    unfold Parse
    rw [hread]
  | ok records =>
    cases records with
    | nil =>
      left
      unfold Parse
      rw [hread]
    | cons record rest =>
      by_cases hlen : 25 ≤ record.length
      · rw [Parse_record log record rest hread hlen]
        cases timestamp.Parse (record.getD 2 "" ++ record.getD 3 "") with
        | none => exact Or.inl rfl
        | some t =>
          by_cases hv : Validator.Struct (eventOf record t).updatePantherFields = true
          · exact Or.inr ⟨(eventOf record t).updatePantherFields, by simp [hv]⟩
          · exact Or.inl (by simp [hv])
      · exact Or.inl (Parse_short log record rest hread (by omega))

/-- A record of at least 25 columns with a well-formed timestamp, a bucket
owner of 64 alphanumeric characters and a status from 100 to 600 is
accepted. -/
theorem Parse_accepts (log : String) (record : List String) (rest : List (List String))
    (date zone owner status : String) (t : timestamp.RFC3339) (n : Int)
    (hread : csv.ReadAll log = .ok (record :: rest)) (hlen : 25 ≤ record.length)
    (hdate : record[2]? = some date) (hzone : record[3]? = some zone)
    (htime : timestamp.Parse (date ++ zone) = some t)
    (howner : record[0]? = some owner) (hlen64 : owner.length = 64)
    (halnum : Validator.alphanum owner = true)
    (hstatus : record[10]? = some status) (hdecode : CsvStringToIntPointer status = some n)
    (hmin : 100 ≤ n) (hmax : n ≤ 600) :
    Parse log = some [(eventOf record t).updatePantherFields] := by
  have hsentinel : owner ≠ "-" := by
    intro h
    rw [h] at hlen64
    exact absurd hlen64 (by decide)
  have hvalid : Validator.Struct (eventOf record t).updatePantherFields = true := by
    rw [Struct_eventOf, getD_of_getElem? record 0 owner howner,
      getD_of_getElem? record 10 status hstatus, hdecode]
    simp [Validator.bucketOwnerOk, Validator.httpStatusOk, CsvStringToPointer, hsentinel,
      hlen64, halnum, hmin, hmax]
  rw [Parse_record log record rest hread hlen, getD_of_getElem? record 2 date hdate,
    getD_of_getElem? record 3 zone hzone, htime]
  simp [hvalid]

/-- A record whose bucket owner or status code breaks a declared rule is
rejected. -/
theorem Parse_rejects (log : String) (record : List String) (rest : List (List String))
    (hread : csv.ReadAll log = .ok (record :: rest))
    (hbad : (Validator.bucketOwnerOk (CsvStringToPointer (record.getD 0 ""))
      && Validator.httpStatusOk (CsvStringToIntPointer (record.getD 10 ""))) = false) :
    Parse log = some [] := by
  by_cases hlen : 25 ≤ record.length
  · rw [Parse_record log record rest hread hlen]
    cases timestamp.Parse (record.getD 2 "" ++ record.getD 3 "") with
    | none => rfl
    | some t =>
      have hinvalid : Validator.Struct (eventOf record t).updatePantherFields = false := by
        rw [Struct_eventOf, hbad]
      simp [hinvalid]
  · exact Parse_short log record rest hread (by omega)

theorem getElem?_of_lt (record : List String) (i : Nat) (h : i < record.length) :
    record[i]? = some (record.getD i "") := by
  simp [List.getD, List.getElem?_eq_getElem h]

end S3ServerAccessParser

namespace S3ServerAccessParser

open parsers Samples

/-- C11. Validation is fail-closed and all-or-nothing: for every line whose
bucket owner is absent (the sentinel), is not exactly 64 characters or holds a
character that is not alphanumeric, or whose status code is absent (the
sentinel or a token that is not a number) or outside its declared range 100
to 600, `Parse` returns the empty result, not an event with the offending
field dropped. -/
theorem parse_validation_fail_closed (log : String) (record : List String)
    (rest : List (List String)) (owner status : String)
    (hread : csv.ReadAll log = .ok (record :: rest))
    (howner : record[0]? = some owner) (hstatus : record[10]? = some status)
    (hviolation : owner = "-" ∨ owner.length ≠ 64 ∨ Validator.alphanum owner = false ∨
      status = "-" ∨ strconv.Atoi status = none ∨
      ∃ n, CsvStringToIntPointer status = some n ∧ (n < 100 ∨ 600 < n)) :
    Parse log = some [] := by
  apply Parse_rejects log record rest hread
  rw [getD_of_getElem? record 0 owner howner, getD_of_getElem? record 10 status hstatus]
  rcases hviolation with h | h | h | h | h | ⟨n, hn, hrange⟩
  · subst h
    rfl
  · have : Validator.bucketOwnerOk (CsvStringToPointer owner) = false := by
      unfold CsvStringToPointer
      split
      · rfl
      · simp [Validator.bucketOwnerOk, h]
    rw [this, Bool.false_and]
  · have : Validator.bucketOwnerOk (CsvStringToPointer owner) = false := by
      unfold CsvStringToPointer
      split
      · rfl
      · simp [Validator.bucketOwnerOk, h]
    rw [this, Bool.false_and]
  · subst h
    have : Validator.httpStatusOk (CsvStringToIntPointer "-") = false := rfl
    rw [this, Bool.and_false]
  · have : CsvStringToIntPointer status = none := by
      unfold CsvStringToIntPointer
      split
      · rfl
      · exact h
    rw [this]
    simp [Validator.httpStatusOk]
  · rw [hn]
    have : Validator.httpStatusOk (some n) = false := by
      simp only [Validator.httpStatusOk, Bool.and_eq_false_imp, decide_eq_true_eq,
        decide_eq_false_iff_not]
      omega
    rw [this, Bool.and_false]

/-- C11, on four lines: the owner is the sentinel, the owner has 11
characters with dots among them, the status is not a number, the status is
601. -/
theorem parse_validation_fail_closed_witness :
    Parse noOwnerLine = some [] ∧ Parse abbreviatedLine = some [] ∧
      Parse nonNumericStatusLine = some [] ∧ Parse status601Line = some [] :=
  ⟨parse_validation_fail_closed noOwnerLine noOwnerRecord [] "-" "200" (by decide) (by decide)
      (by decide) (Or.inl rfl),
    parse_validation_fail_closed abbreviatedLine
      (plainRecord "79a59df9..." "[06/Feb/2019:00:00:38" "+0000]" "192.0.2.3" "200") []
      "79a59df9..." "200" (by decide) (by decide) (by decide) (Or.inr (Or.inl (by decide))),
    parse_validation_fail_closed nonNumericStatusLine
      (plainRecord owner "[06/Feb/2019:00:00:38" "+0000]" "192.0.2.3" "OK") [] owner "OK"
      (by decide) (by decide) (by decide)
      (Or.inr (Or.inr (Or.inr (Or.inr (Or.inl (by decide)))))),
    parse_validation_fail_closed status601Line
      (plainRecord owner "[06/Feb/2019:00:00:38" "+0000]" "192.0.2.3" "601") [] owner "601"
      (by decide) (by decide) (by decide)
      (Or.inr (Or.inr (Or.inr (Or.inr (Or.inr ⟨601, by decide, Or.inr (by decide)⟩)))))⟩

/-- C13. Every event emitted by `Parse` has an event time that is present and
equal to its `Time` field, and a log-type identifier equal to `LogType`, the
constant string `AWS.S3ServerAccess`. -/
theorem parse_core_fields (log : String) (e : S3ServerAccess)
    (hemit : Parse log = some [e]) :
    e.PantherEventTime = e.Time ∧ (∃ t, e.PantherEventTime = some t) ∧
      e.PantherLogType = LogType ∧ LogType = "AWS.S3ServerAccess" := by
  obtain ⟨record, rest, hread⟩ := Parse_emits_read log e hemit
  obtain ⟨t, _, he⟩ := Parse_emits_eq log record rest e hread hemit
  rw [he]
  exact ⟨rfl, ⟨t, rfl⟩, rfl, rfl⟩

/-- C13, on the documentation's sample line. -/
theorem parse_core_fields_witness :
    Parse docLine = some [docEvent] ∧
      (docEvent.PantherEventTime = docEvent.Time ∧ (∃ t, docEvent.PantherEventTime = some t) ∧
        docEvent.PantherLogType = LogType ∧ LogType = "AWS.S3ServerAccess") :=
  ⟨by decide, parse_core_fields docLine docEvent (by decide)⟩

/-- C15. For every input line, `ParseHeader` returns exactly what `Parse`
returns on that line. -/
theorem parseHeader_eq_parse (log : String) : ParseHeader log = Parse log :=
  rfl

end S3ServerAccessParser

namespace S3ServerAccessParser

open parsers Samples

/-- C16. For every input, `Parse` returns either the empty result or exactly
one event, and it returns exactly one event if and only if tokenization
succeeds with at least one record, the first record has at least 25 columns,
`record[2] + record[3]` parses as a timestamp, the bucket-owner token is not
the sentinel and is exactly 64 alphanumeric characters, and the status-code
token decodes to an integer n with 100 ≤ n ≤ 600. Only the first record is
looked at. -/
theorem parse_accepts_iff (log : String) :
    (Parse log = some [] ∨ ∃ e, Parse log = some [e]) ∧
      ((∃ e, Parse log = some [e]) ↔
        ∃ record rest date zone owner status t n,
          csv.ReadAll log = .ok (record :: rest) ∧ 25 ≤ record.length ∧
          record[2]? = some date ∧ record[3]? = some zone ∧
          timestamp.Parse (date ++ zone) = some t ∧
          record[0]? = some owner ∧ owner ≠ "-" ∧ owner.length = 64 ∧
          Validator.alphanum owner = true ∧
          record[10]? = some status ∧ CsvStringToIntPointer status = some n ∧
          100 ≤ n ∧ n ≤ 600) := by
  refine ⟨Parse_total log, ?_, ?_⟩
  · rintro ⟨e, hemit⟩
    obtain ⟨record, rest, hread⟩ := Parse_emits_read log e hemit
    obtain ⟨hlen, t, ht, he, hvalid⟩ := Parse_emits log record rest e hread hemit
    rw [he, Struct_eventOf, Bool.and_eq_true] at hvalid
    obtain ⟨hownerOk, hstatusOk⟩ := hvalid
    have hne : record.getD 0 "" ≠ "-" := by
      intro h
      rw [h] at hownerOk
      exact absurd hownerOk (by decide)
    have hsome : CsvStringToPointer (record.getD 0 "") = some (record.getD 0 "") := by
      unfold CsvStringToPointer
      rw [if_neg hne]
    rw [hsome] at hownerOk
    simp only [Validator.bucketOwnerOk, Bool.and_eq_true, beq_iff_eq] at hownerOk
    cases hn : CsvStringToIntPointer (record.getD 10 "") with
    | none =>
      rw [hn] at hstatusOk
      exact absurd hstatusOk (by decide)
    | some n =>
      rw [hn] at hstatusOk
      simp only [Validator.httpStatusOk, Bool.and_eq_true, decide_eq_true_eq] at hstatusOk
      exact ⟨record, rest, record.getD 2 "", record.getD 3 "", record.getD 0 "",
        record.getD 10 "", t, n, hread, hlen, getElem?_of_lt record 2 (by omega),
        getElem?_of_lt record 3 (by omega), ht, getElem?_of_lt record 0 (by omega), hne,
        hownerOk.1, hownerOk.2, getElem?_of_lt record 10 (by omega), hn, hstatusOk.2,
        hstatusOk.1⟩
  · rintro ⟨record, rest, date, zone, owner, status, t, n, hread, hlen, hdate, hzone, htime,
      howner, _, hlen64, halnum, hstatus, hdecode, hmin, hmax⟩
    exact ⟨_, Parse_accepts log record rest date zone owner status t n hread hlen hdate hzone
      htime howner hlen64 halnum hstatus hdecode hmin hmax⟩

/-- C18. For every line on which `Parse` emits an event, with tokenized record
`record`: each field of the fixed schema is the decoding of its own column
and of no other, and columns 3 and 4 are used by the timestamp alone. -/
theorem parse_column_mapping (log : String) (record : List String)
    (rest : List (List String)) (e : S3ServerAccess)
    (hread : csv.ReadAll log = .ok (record :: rest)) (hemit : Parse log = some [e]) :
    record[0]?.map CsvStringToPointer = some e.BucketOwner ∧
      record[1]?.map CsvStringToPointer = some e.Bucket ∧
      (∃ date zone, record[2]? = some date ∧ record[3]? = some zone ∧
        timestamp.Parse (date ++ zone) = e.Time) ∧
      record[4]?.map CsvStringToPointer = some e.RemoteIP ∧
      record[5]?.map CsvStringToPointer = some e.Requester ∧
      record[6]?.map CsvStringToPointer = some e.RequestID ∧
      record[7]?.map CsvStringToPointer = some e.Operation ∧
      record[8]?.map CsvStringToPointer = some e.Key ∧
      record[9]?.map CsvStringToPointer = some e.RequestURI ∧
      record[10]?.map CsvStringToIntPointer = some e.HTTPStatus ∧
      record[11]?.map CsvStringToPointer = some e.ErrorCode ∧
      record[12]?.map CsvStringToIntPointer = some e.BytesSent ∧
      record[13]?.map CsvStringToIntPointer = some e.ObjectSize ∧
      record[14]?.map CsvStringToIntPointer = some e.TotalTime ∧
      record[15]?.map CsvStringToIntPointer = some e.TurnAroundTime ∧
      record[16]?.map CsvStringToPointer = some e.Referrer ∧
      record[17]?.map CsvStringToPointer = some e.UserAgent ∧
      record[18]?.map CsvStringToPointer = some e.VersionID ∧
      record[19]?.map CsvStringToPointer = some e.HostID ∧
      record[20]?.map CsvStringToPointer = some e.SignatureVersion ∧
      record[21]?.map CsvStringToPointer = some e.CipherSuite ∧
      record[22]?.map CsvStringToPointer = some e.AuthenticationType ∧
      record[23]?.map CsvStringToPointer = some e.HostHeader ∧
      record[24]?.map CsvStringToPointer = some e.TLSVersion := by
  obtain ⟨hlen, _⟩ := Parse_emits log record rest e hread hemit
  obtain ⟨t, ht, he⟩ := Parse_emits_eq log record rest e hread hemit
  have hcol : ∀ i, i < 25 → record[i]? = some (record.getD i "") :=
    fun i hi => getElem?_of_lt record i (by omega)
  rw [he]
  refine ⟨?_, ?_, ⟨record.getD 2 "", record.getD 3 "", hcol 2 (by omega), hcol 3 (by omega),
    ht⟩, ?_, ?_, ?_, ?_, ?_, ?_, ?_, ?_, ?_, ?_, ?_, ?_, ?_, ?_, ?_, ?_, ?_, ?_, ?_, ?_, ?_⟩
  all_goals
    first
    | (rw [hcol 0 (by omega)]; rfl) | (rw [hcol 1 (by omega)]; rfl)
    | (rw [hcol 4 (by omega)]; rfl) | (rw [hcol 5 (by omega)]; rfl)
    | (rw [hcol 6 (by omega)]; rfl) | (rw [hcol 7 (by omega)]; rfl)
    | (rw [hcol 8 (by omega)]; rfl) | (rw [hcol 9 (by omega)]; rfl)
    | (rw [hcol 10 (by omega)]; rfl) | (rw [hcol 11 (by omega)]; rfl)
    | (rw [hcol 12 (by omega)]; rfl) | (rw [hcol 13 (by omega)]; rfl)
    | (rw [hcol 14 (by omega)]; rfl) | (rw [hcol 15 (by omega)]; rfl)
    | (rw [hcol 16 (by omega)]; rfl) | (rw [hcol 17 (by omega)]; rfl)
    | (rw [hcol 18 (by omega)]; rfl) | (rw [hcol 19 (by omega)]; rfl)
    | (rw [hcol 20 (by omega)]; rfl) | (rw [hcol 21 (by omega)]; rfl)
    | (rw [hcol 22 (by omega)]; rfl) | (rw [hcol 23 (by omega)]; rfl)
    | (rw [hcol 24 (by omega)]; rfl)

/-- C18, on the documentation's sample line. -/
theorem parse_column_mapping_witness :
    csv.ReadAll docLine = .ok [docRecord] ∧ Parse docLine = some [docEvent] ∧
      docRecord[12]?.map CsvStringToIntPointer = some docEvent.BytesSent ∧
      docEvent.BytesSent = some 113 :=
  ⟨by decide, by decide,
    (parse_column_mapping docLine docRecord [] docEvent (by decide)
      (by decide)).2.2.2.2.2.2.2.2.2.2.2.1,
    by decide⟩

/-- C19. `Parse` is total and index-safe: once the column-count test has
passed, every index expression `record[0]` to `record[24]` and the slice
`record[25:]` is in range; and for every input string `Parse` ends without a
panic, with the empty result or with one event. So it does on the empty
string, on a line with an unbalanced quote and on a line of three columns. -/
theorem parse_total_index_safe :
    (∀ record : List String, ¬ record.length < s3ServerAccessMinNumberOfColumns →
      (∀ i, i ≤ 24 → ∃ tok, index record i = some tok) ∧
        (record.length > 25 → ∃ more, sliceFrom record 25 = some more)) ∧
      (∀ log, Parse log = some [] ∨ ∃ e, Parse log = some [e]) ∧
      Parse "" = some [] ∧ Parse "\"unbalanced quote" = some [] ∧ Parse "a b c" = some [] := by
  refine ⟨?_, Parse_total, by decide, by decide, by decide⟩
  intro record hlen
  have h25 : 25 ≤ record.length := by
    simp only [s3ServerAccessMinNumberOfColumns] at hlen
    omega
  refine ⟨fun i hi => ⟨record.getD i "", index_eq record i (by omega)⟩, fun _ => ?_⟩
  exact ⟨record.drop 25, by simp [sliceFrom]; omega⟩

end S3ServerAccessParser

namespace S3ServerAccessParser

open parsers Samples

theorem getD_set_ne (record : List String) (i j : Nat) (tok : String) (h : i ≠ j) :
    (record.set i tok).getD j "" = record.getD j "" := by
  simp [List.getD, List.getElem?_set_ne h]

theorem getD_set_self (record : List String) (i : Nat) (tok : String)
    (h : i < record.length) : (record.set i tok).getD i "" = tok := by
  simp [List.getD, List.getElem?_set_self, h]

theorem CsvStringToIntPointer_of_not_integer (tok : String) (h : strconv.Atoi tok = none) :
    CsvStringToIntPointer tok = none := by
  unfold CsvStringToIntPointer
  split
  · rfl
  · exact h

/-- The populated event of a record in which one of the numeric columns 13 to
16 has been replaced. -/
theorem eventOf_set (record : List String) (t : timestamp.RFC3339) (tok : String)
    (hlen : 25 ≤ record.length) :
    eventOf (record.set 12 tok) t
        = { eventOf record t with BytesSent := CsvStringToIntPointer tok } ∧
      eventOf (record.set 13 tok) t
        = { eventOf record t with ObjectSize := CsvStringToIntPointer tok } ∧
      eventOf (record.set 14 tok) t
        = { eventOf record t with TotalTime := CsvStringToIntPointer tok } ∧
      eventOf (record.set 15 tok) t
        = { eventOf record t with TurnAroundTime := CsvStringToIntPointer tok } := by
  have hdrop : ∀ i, i < 25 → (record.set i tok).drop 25 = record.drop 25 :=
    fun i hi => List.drop_set_of_lt tok record hi
  refine ⟨?_, ?_, ?_, ?_⟩
  · simp only [eventOf, hdrop 12 (by omega), getD_set_self record 12 tok (by omega)]
    simp (disch := decide) only [getD_set_ne]
  · simp only [eventOf, hdrop 13 (by omega), getD_set_self record 13 tok (by omega)]
    simp (disch := decide) only [getD_set_ne]
  · simp only [eventOf, hdrop 14 (by omega), getD_set_self record 14 tok (by omega)]
    simp (disch := decide) only [getD_set_ne]
  · simp only [eventOf, hdrop 15 (by omega), getD_set_self record 15 tok (by omega)]
    simp (disch := decide) only [getD_set_ne]

end S3ServerAccessParser

namespace S3ServerAccess

/-- Enrichment does not look at the numeric columns 13 to 16. -/
theorem updatePantherFields_numeric (e : S3ServerAccess) (v : Option Int) :
    ({ e with BytesSent := v }).updatePantherFields
        = { e.updatePantherFields with BytesSent := v } ∧
      ({ e with ObjectSize := v }).updatePantherFields
        = { e.updatePantherFields with ObjectSize := v } ∧
      ({ e with TotalTime := v }).updatePantherFields
        = { e.updatePantherFields with TotalTime := v } ∧
      ({ e with TurnAroundTime := v }).updatePantherFields
        = { e.updatePantherFields with TurnAroundTime := v } := by
  refine ⟨?_, ?_, ?_, ?_⟩ <;>
  · rw [updatePantherFields_eq, updatePantherFields_envelope, updatePantherFields_eq e,
      updatePantherFields_envelope e]

end S3ServerAccess

namespace S3ServerAccessParser

open parsers Samples

/-- Replacing one of the numeric columns 13 to 16 of an accepted record by a
token that is not an integer leaves the record accepted. -/
theorem Parse_set (log : String) (record : List String) (rest : List (List String))
    (e : S3ServerAccess) (hread : csv.ReadAll log = .ok (record :: rest))
    (hemit : Parse log = some [e]) (log' : String) (rest' : List (List String)) (i : Nat)
    (tok : String) (hlow : 12 ≤ i) (hhigh : i ≤ 15)
    (hread' : csv.ReadAll log' = .ok (record.set i tok :: rest')) :
    ∃ t, e = (eventOf record t).updatePantherFields ∧
      Parse log' = some [(eventOf (record.set i tok) t).updatePantherFields] := by
  obtain ⟨hlen, t, ht, he, hvalid⟩ := Parse_emits log record rest e hread hemit
  refine ⟨t, he, ?_⟩
  have hlen' : 25 ≤ (record.set i tok).length := by
    rw [List.length_set]
    exact hlen
  have hvalid' : Validator.Struct (eventOf (record.set i tok) t).updatePantherFields = true := by
    rw [he, Struct_eventOf] at hvalid
    rw [Struct_eventOf, getD_set_ne record i 0 tok (by omega),
      getD_set_ne record i 10 tok (by omega)]
    exact hvalid
  rw [Parse_record log' (record.set i tok) rest' hread' hlen',
    getD_set_ne record i 2 tok (by omega), getD_set_ne record i 3 tok (by omega), ht]
  simp [hvalid']

/-- C12. For every line that `Parse` accepts, replacing the token of one of
the numeric columns that carry no rule (bytes sent, object size, total time,
turn-around time; columns 13 to 16) by a token that is not a valid integer
still yields exactly one event, equal to the original one except that this
field is absent. -/
theorem parse_lenient_numeric (log : String) (record : List String)
    (rest : List (List String)) (e : S3ServerAccess) (tok : String)
    (hread : csv.ReadAll log = .ok (record :: rest)) (hemit : Parse log = some [e])
    (hbad : strconv.Atoi tok = none) (log' : String) (rest' : List (List String)) :
    (csv.ReadAll log' = .ok (record.set 12 tok :: rest') →
        Parse log' = some [{ e with BytesSent := none }]) ∧
      (csv.ReadAll log' = .ok (record.set 13 tok :: rest') →
        Parse log' = some [{ e with ObjectSize := none }]) ∧
      (csv.ReadAll log' = .ok (record.set 14 tok :: rest') →
        Parse log' = some [{ e with TotalTime := none }]) ∧
      (csv.ReadAll log' = .ok (record.set 15 tok :: rest') →
        Parse log' = some [{ e with TurnAroundTime := none }]) := by
  have hnone := CsvStringToIntPointer_of_not_integer tok hbad
  obtain ⟨hlen, _⟩ := Parse_emits log record rest e hread hemit
  refine ⟨?_, ?_, ?_, ?_⟩
  · intro hread'
    obtain ⟨t, he, hparse⟩ := Parse_set log record rest e hread hemit log' rest' 12 tok
      (by omega) (by omega) hread'
    rw [hparse, he, (eventOf_set record t tok hlen).1, hnone,
      (S3ServerAccess.updatePantherFields_numeric (eventOf record t) none).1]
  · intro hread'
    obtain ⟨t, he, hparse⟩ := Parse_set log record rest e hread hemit log' rest' 13 tok
      (by omega) (by omega) hread'
    rw [hparse, he, (eventOf_set record t tok hlen).2.1, hnone,
      (S3ServerAccess.updatePantherFields_numeric (eventOf record t) none).2.1]
  · intro hread'
    obtain ⟨t, he, hparse⟩ := Parse_set log record rest e hread hemit log' rest' 14 tok
      (by omega) (by omega) hread'
    rw [hparse, he, (eventOf_set record t tok hlen).2.2.1, hnone,
      (S3ServerAccess.updatePantherFields_numeric (eventOf record t) none).2.2.1]
  · intro hread'
    obtain ⟨t, he, hparse⟩ := Parse_set log record rest e hread hemit log' rest' 15 tok
      (by omega) (by omega) hread'
    rw [hparse, he, (eventOf_set record t tok hlen).2.2.2, hnone,
      (S3ServerAccess.updatePantherFields_numeric (eventOf record t) none).2.2.2]

/-- C12, on the documentation's sample line with its bytes-sent column `113`
replaced by `1x3`. -/
theorem parse_lenient_numeric_witness :
    csv.ReadAll docLine = .ok [docRecord] ∧ Parse docLine = some [docEvent] ∧
      docEvent.BytesSent = some 113 ∧ strconv.Atoi "1x3" = none ∧
      csv.ReadAll malformedBytesLine = .ok [docRecord.set 12 "1x3"] ∧
      Parse malformedBytesLine = some [{ docEvent with BytesSent := none }] :=
  ⟨by decide, by decide, by decide, by decide, by decide,
    (parse_lenient_numeric docLine docRecord [] docEvent "1x3" (by decide) (by decide)
      (by decide) malformedBytesLine []).1 (by decide)⟩

end S3ServerAccessParser

namespace operations

theorem consumeFailure_eq_none (err : Option ConsumerError) :
    consumeFailure err = none ↔ err = none ∨ err = some ConsumerError.EOF := by
  cases err with
  | none => simp [consumeFailure]
  | some e => by_cases h : e = ConsumerError.EOF <;> simp [consumeFailure, h]

theorem consumeFailure_eq_some (err : Option ConsumerError) (e : ConsumerError) :
    consumeFailure err = some e ↔ err = some e ∧ e ≠ ConsumerError.EOF := by
  cases err with
  | none => simp [consumeFailure]
  | some e' =>
    by_cases h : e' = ConsumerError.EOF
    · subst h
      constructor
      · intro h'
        simp [consumeFailure] at h'
      · rintro ⟨h1, h2⟩
        exact absurd (Option.some.inj h1).symm h2
    · simp only [consumeFailure, ne_eq, h, not_false_eq_true, if_true, Option.some.injEq]
      constructor
      · intro h'
        subst h'
        exact ⟨rfl, h⟩
      · intro h'
        exact h'.1

/-- C17 as stated fails for code 400: when the consumer fails on the body of a
400 response, the error returned is the consumer's error and not a
`BulkUploadBadRequest`. -/
theorem readResponse_400_consumer_failure :
    ReadResponse ⟨400, ""⟩ sampleConsumer
        = (none, some (ResponseError.consumer (ConsumerError.other "unexpected end of input"))) ∧
      ¬ ∃ result : BulkUploadBadRequest String,
          ReadResponse ⟨400, ""⟩ sampleConsumer = (none, some (ResponseError.badRequest result)) := by
  refine ⟨by decide, ?_⟩
  rintro ⟨result, h⟩
  have h' : ReadResponse ⟨400, ""⟩ sampleConsumer
      = (none, some (ResponseError.consumer (ConsumerError.other "unexpected end of input"))) := by
    decide
  rw [h'] at h
  simp at h

/-- C17, amended. `ReadResponse` dispatches on the status code. It returns a
success result (a `BulkUploadOK` with a payload) and no error exactly for code
200 when the consumer returns nil or `io.EOF` on the body. For code 400 with
the body so consumed it returns no result and a `BulkUploadBadRequest` error
with a payload. For code 200 or 400 with any other consumer error it returns
no result and that error. For code 500 it returns no result and a
`BulkUploadInternalServerError`. For every other code it returns no result
and an API error with that code. A result and an error are never returned
together, and one of them always is. -/
theorem readResponse_dispatch {R E : Type} [Inhabited R] [Inhabited E]
    (response : ClientResponse) (consumer : Consumer R E) :
    ((∃ result, ReadResponse response consumer = (some result, none)) ↔
        response.Code = 200 ∧
          ((consumer.ConsumeResult response.Body default).2 = none ∨
            (consumer.ConsumeResult response.Body default).2 = some ConsumerError.EOF)) ∧
      (response.Code = 200 →
        ((consumer.ConsumeResult response.Body default).2 = none ∨
          (consumer.ConsumeResult response.Body default).2 = some ConsumerError.EOF) →
        ReadResponse response consumer
          = (some { Payload := some (consumer.ConsumeResult response.Body default).1 }, none)) ∧
      (response.Code = 200 → ∀ err,
        (consumer.ConsumeResult response.Body default).2 = some err → err ≠ ConsumerError.EOF →
        ReadResponse response consumer = (none, some (ResponseError.consumer err))) ∧
      (response.Code = 400 →
        ((consumer.ConsumeError response.Body default).2 = none ∨
          (consumer.ConsumeError response.Body default).2 = some ConsumerError.EOF) →
        ReadResponse response consumer
          = (none, some (ResponseError.badRequest
              { Payload := some (consumer.ConsumeError response.Body default).1 }))) ∧
      (response.Code = 400 → ∀ err,
        (consumer.ConsumeError response.Body default).2 = some err → err ≠ ConsumerError.EOF →
        ReadResponse response consumer = (none, some (ResponseError.consumer err))) ∧
      (response.Code = 500 →
        ReadResponse response consumer
          = (none, some (ResponseError.internalServerError {}))) ∧
      (response.Code ≠ 200 → response.Code ≠ 400 → response.Code ≠ 500 →
        ReadResponse response consumer
          = (none, some (ResponseError.apiError "unknown error" response response.Code))) ∧
      ((ReadResponse response consumer).1.isSome ≠ (ReadResponse response consumer).2.isSome) := by
  have hok : response.Code = 200 →
      ((consumer.ConsumeResult response.Body default).2 = none ∨
        (consumer.ConsumeResult response.Body default).2 = some ConsumerError.EOF) →
      ReadResponse response consumer
        = (some { Payload := some (consumer.ConsumeResult response.Body default).1 }, none) := by
    intro hc h
    have hf := (consumeFailure_eq_none _).mpr h
    simp [ReadResponse, hc, BulkUploadOK.readResponse, hf]
  have hokFail : response.Code = 200 → ∀ err,
      (consumer.ConsumeResult response.Body default).2 = some err → err ≠ ConsumerError.EOF →
      ReadResponse response consumer = (none, some (ResponseError.consumer err)) := by
    intro hc err h hne
    have hf := (consumeFailure_eq_some _ err).mpr ⟨h, hne⟩
    simp [ReadResponse, hc, BulkUploadOK.readResponse, hf]
  have hbad : response.Code = 400 →
      ((consumer.ConsumeError response.Body default).2 = none ∨
        (consumer.ConsumeError response.Body default).2 = some ConsumerError.EOF) →
      ReadResponse response consumer
        = (none, some (ResponseError.badRequest
            { Payload := some (consumer.ConsumeError response.Body default).1 })) := by
    intro hc h
    have hf := (consumeFailure_eq_none _).mpr h
    simp [ReadResponse, hc, BulkUploadBadRequest.readResponse, hf]
  have hbadFail : response.Code = 400 → ∀ err,
      (consumer.ConsumeError response.Body default).2 = some err → err ≠ ConsumerError.EOF →
      ReadResponse response consumer = (none, some (ResponseError.consumer err)) := by
    intro hc err h hne
    have hf := (consumeFailure_eq_some _ err).mpr ⟨h, hne⟩
    simp [ReadResponse, hc, BulkUploadBadRequest.readResponse, hf]
  have hserver : response.Code = 500 →
      ReadResponse response consumer
        = (none, some (ResponseError.internalServerError {})) := by
    intro hc
    simp [ReadResponse, hc, BulkUploadInternalServerError.readResponse,
      NewBulkUploadInternalServerError]
  have hother : response.Code ≠ 200 → response.Code ≠ 400 → response.Code ≠ 500 →
      ReadResponse response consumer
        = (none, some (ResponseError.apiError "unknown error" response response.Code)) := by
    intro h1 h2 h3
    simp [ReadResponse, h1, h2, h3]
  have hcases : ∀ err : Option ConsumerError,
      (err = none ∨ err = some ConsumerError.EOF) ∨ ∃ e, err = some e ∧ e ≠ ConsumerError.EOF := by
    intro err
    cases err with
    | none => exact Or.inl (Or.inl rfl)
    | some e =>
      by_cases h : e = ConsumerError.EOF
      · exact Or.inl (Or.inr (by rw [h]))
      · exact Or.inr ⟨e, rfl, h⟩
  refine ⟨?_, hok, hokFail, hbad, hbadFail, hserver, hother, ?_⟩
  · constructor
    · rintro ⟨result, hres⟩
      by_cases h200 : response.Code = 200
      · refine ⟨h200, ?_⟩
        rcases hcases (consumer.ConsumeResult response.Body default).2 with h | ⟨e, he, hne⟩
        · exact h
        · rw [hokFail h200 e he hne] at hres
          simp at hres
      · by_cases h400 : response.Code = 400
        · rcases hcases (consumer.ConsumeError response.Body default).2 with h | ⟨e, he, hne⟩
          · rw [hbad h400 h] at hres
            simp at hres
          · rw [hbadFail h400 e he hne] at hres
            simp at hres
        · by_cases h500 : response.Code = 500
          · rw [hserver h500] at hres
            simp at hres
          · rw [hother h200 h400 h500] at hres
            simp at hres
    · rintro ⟨h200, h⟩
      exact ⟨_, hok h200 h⟩
  · by_cases h200 : response.Code = 200
    · rcases hcases (consumer.ConsumeResult response.Body default).2 with h | ⟨e, he, hne⟩
      · rw [hok h200 h]
        simp
      · rw [hokFail h200 e he hne]
        simp
    · by_cases h400 : response.Code = 400
      · rcases hcases (consumer.ConsumeError response.Body default).2 with h | ⟨e, he, hne⟩
        · rw [hbad h400 h]
          simp
        · rw [hbadFail h400 e he hne]
          simp
      · by_cases h500 : response.Code = 500
        · rw [hserver h500]
          simp
        · rw [hother h200 h400 h500]
          simp

end operations

namespace strconv

theorem digitChar_spec (k : Nat) (h : k < 10) :
    (Nat.digitChar k).isDigit = true ∧ (Nat.digitChar k).toNat - 48 = k := by
  interval_cases k <;> decide

theorem digitsValue_append (pre : List Char) (c : Char) :
    digitsValue (pre ++ [c]) = 10 * digitsValue pre + (c.toNat - 48) := by
  simp [digitsValue, List.foldl_append]

/-- The decimal digits that `Nat.toDigitsCore` puts in front of `ds`. -/
theorem toDigitsCore_spec (fuel : Nat) : ∀ (n : Nat) (ds : List Char), n < fuel →
    ∃ pre, Nat.toDigitsCore 10 fuel n ds = pre ++ ds ∧ pre ≠ [] ∧
      pre.all Char.isDigit = true ∧ digitsValue pre = n := by
  induction fuel with
  | zero => intro n ds h; omega
  | succ fuel ih =>
    intro n ds h
    obtain ⟨hdigit, hval⟩ := digitChar_spec (n % 10) (Nat.mod_lt n (by decide))
    by_cases h0 : n / 10 = 0
    · refine ⟨[Nat.digitChar (n % 10)], ?_, by simp, by simp [hdigit], ?_⟩
      · simp [Nat.toDigitsCore, h0]
      · have : n < 10 := by omega
        simp [digitsValue, hval]
        omega
    · obtain ⟨pre, hpre, hne, hall, hvalue⟩ :=
        ih (n / 10) (Nat.digitChar (n % 10) :: ds) (by omega)
      refine ⟨pre ++ [Nat.digitChar (n % 10)], ?_, by simp, ?_, ?_⟩
      · simp [Nat.toDigitsCore, h0, hpre]
      · simp [List.all_append, hall, hdigit]
      · rw [digitsValue_append, hvalue, hval]
        omega

theorem toDigits_spec (n : Nat) :
    Nat.toDigits 10 n ≠ [] ∧ (Nat.toDigits 10 n).all Char.isDigit = true ∧
      digitsValue (Nat.toDigits 10 n) = n := by
  obtain ⟨pre, hpre, hne, hall, hvalue⟩ := toDigitsCore_spec (n + 1) n [] (by omega)
  unfold Nat.toDigits
  rw [hpre, List.append_nil]
  exact ⟨hne, hall, hvalue⟩

end strconv

namespace strconv

theorem Atoi_digits (ds : List Char) (hne : ds ≠ []) (hall : ds.all Char.isDigit = true)
    (hmax : (digitsValue ds : Int) ≤ 2 ^ 63 - 1) :
    Atoi (String.mk ds) = some (digitsValue ds : Int) := by
  cases ds with
  | nil => exact absurd rfl hne
  | cons c cs =>
    have hc : c.isDigit = true := by
      simp only [List.all_cons, Bool.and_eq_true] at hall
      exact hall.1
    have hminus : c ≠ '-' := by
      intro h
      rw [h] at hc
      exact absurd hc (by decide)
    have hplus : c ≠ '+' := by
      intro h
      rw [h] at hc
      exact absurd hc (by decide)
    have hmin : -(2 : Int) ^ 63 ≤ (digitsValue (c :: cs) : Int) := by
      have : (0 : Int) ≤ (digitsValue (c :: cs) : Int) := Int.ofNat_nonneg _
      omega
    have hmax' : (digitsValue (c :: cs) : Int) ≤ 9223372036854775807 := by
      simpa using hmax
    simp only [Atoi, String.toList, hminus, hplus, if_false]
    simp [hall]
    omega

theorem Atoi_neg_digits (ds : List Char) (hne : ds ≠ []) (hall : ds.all Char.isDigit = true)
    (hmin : -(2 : Int) ^ 63 ≤ -(digitsValue ds : Int)) :
    Atoi (String.mk ('-' :: ds)) = some (-(digitsValue ds : Int)) := by
  have hmax : -(digitsValue ds : Int) ≤ 2 ^ 63 - 1 := by
    have : (0 : Int) ≤ (digitsValue ds : Int) := Int.ofNat_nonneg _
    omega
  have hempty : ds.isEmpty = false := by
    cases ds with
    | nil => exact absurd rfl hne
    | cons c cs => rfl
  have hmin' : -(9223372036854775808 : Int) ≤ -(digitsValue ds : Int) := by
    simpa using hmin
  simp only [Atoi, String.toList, if_true]
  simp [hall, hempty]
  omega

/-- `Atoi` reads back the decimal text of every integer of the `int` range. -/
theorem Atoi_toString (n : Int) (hmin : -(2 : Int) ^ 63 ≤ n) (hmax : n ≤ 2 ^ 63 - 1) :
    Atoi (toString n) = some n := by
  cases n with
  | ofNat m =>
    obtain ⟨hne, hall, hvalue⟩ := toDigits_spec m
    have h := Atoi_digits (Nat.toDigits 10 m) hne hall (by rw [hvalue]; exact hmax)
    rw [hvalue] at h
    exact h
  | negSucc m =>
    obtain ⟨hne, hall, hvalue⟩ := toDigits_spec (m + 1)
    have h := Atoi_neg_digits (Nat.toDigits 10 (m + 1)) hne hall
      (by rw [hvalue]; exact hmin)
    rw [hvalue] at h
    exact h

/-- A value returned by `Atoi` is in the `int` range. -/
theorem Atoi_range (s : String) (n : Int) (h : Atoi s = some n) :
    -(2 : Int) ^ 63 ≤ n ∧ n ≤ 2 ^ 63 - 1 := by
  unfold Atoi at h
  simp only [] at h
  split_ifs at h
  all_goals
    have hn := Option.some.inj h
    subst hn
    assumption

/-- The decimal text of an integer is not the sentinel. -/
theorem toString_ne_sentinel (n : Int) : toString n ≠ "-" := by
  intro h
  cases n with
  | ofNat m =>
    obtain ⟨hne, hall, _⟩ := toDigits_spec m
    have hs : Nat.toDigits 10 m = ['-'] := by
      have := congrArg String.toList h
      exact this
    rw [hs] at hall
    exact absurd hall (by decide)
  | negSucc m =>
    obtain ⟨hne, _, _⟩ := toDigits_spec (m + 1)
    have hs : '-' :: Nat.toDigits 10 (m + 1) = ['-'] := by
      have := congrArg String.toList h
      exact this
    simp at hs
    exact hne hs

end strconv

namespace parsers

/-- C14 as stated fails for the numeric decoder: the token `abc` decodes to
absent and re-encodes to the sentinel, and the token `007` decodes to 7 and
re-encodes to `7`. -/
theorem reencode_numeric_loses_token :
    CsvStringToIntPointer "abc" = none ∧ reencodeInt (CsvStringToIntPointer "abc") = "-" ∧
      reencodeInt (CsvStringToIntPointer "abc") ≠ "abc" ∧
      CsvStringToIntPointer "007" = some 7 ∧ reencodeInt (CsvStringToIntPointer "007") = "7" ∧
      reencodeInt (CsvStringToIntPointer "007") ≠ "007" := by
  decide

/-- C14, amended. For every token t, decoding t with the string decoder and
re-encoding it reproduces t exactly; decoding t with the numeric decoder and
re-encoding it reproduces t exactly if and only if t is the sentinel or the
decimal text of an integer of the `int` range. -/
theorem decode_reencode_round_trip :
    (∀ t : String, reencodeString (CsvStringToPointer t) = t) ∧
      (∀ t : String, reencodeInt (CsvStringToIntPointer t) = t ↔
        t = "-" ∨ ∃ n : Int, -(2 : Int) ^ 63 ≤ n ∧ n ≤ 2 ^ 63 - 1 ∧ t = toString n) := by
  constructor
  · intro t
    unfold CsvStringToPointer
    split
    · rename_i h
      rw [h]
      rfl
    · rfl
  · intro t
    constructor
    · intro h
      cases hdec : CsvStringToIntPointer t with
      | none =>
        rw [hdec] at h
        exact Or.inl h.symm
      | some n =>
        rw [hdec] at h
        right
        have hatoi : strconv.Atoi t = some n := by
          unfold CsvStringToIntPointer at hdec
          split at hdec
          · exact absurd hdec (by simp)
          · exact hdec
        obtain ⟨hmin, hmax⟩ := strconv.Atoi_range t n hatoi
        exact ⟨n, hmin, hmax, h.symm⟩
    · rintro (h | ⟨n, hmin, hmax, h⟩)
      · rw [h]
        rfl
      · have hne : t ≠ "-" := by
          rw [h]
          exact strconv.toString_ne_sentinel n
        have hdec : CsvStringToIntPointer t = some n := by
          unfold CsvStringToIntPointer
          rw [if_neg hne, h]
          exact strconv.Atoi_toString n hmin hmax
        rw [hdec, h]
        rfl

end parsers
